import Mathlib

/-!
Verification development for the Puffing language core
(lexer / parser / tree-walking interpreter).

The definitions below are a shallow embedding of the Python sources:
  - `src/puffing/src/lexer.py`       (tokenizer)
  - `src/puffing/src/parser.py`      (recursive-descent expression parser)
  - `src/puffing/src/interpreter.py` (AST evaluator)

Modelling conventions:
  - Python dicts used as environments become functions `String → Option Val`;
    a shallow `dict.copy()` is just remembering the old function value.
  - Python lists are heap-allocated mutable containers: the heap is a
    `List (List Val)` and an array value is an address into it, so aliasing
    and in-place mutation behave exactly as in the source.
  - Python exceptions (`BreakException`, `ContinueException`,
    `ReturnException`, `PuffingRuntimeError`, and *untyped host exceptions*
    such as `ZeroDivisionError`, `TypeError`, `RecursionError`) become the
    outcome type `Res`.  Untyped host exceptions are kept distinct from the
    interpreter's typed `PuffingRuntimeError`, because several claims are
    about exactly that distinction.
  - Evaluation is fuelled; running out of fuel models the host (Python)
    recursion limit firing, i.e. an uncaught `RecursionError`
    (`RErr.hostRecursion`).  The interpreter source installs no handler for
    it, so the fuelled evaluator propagates it like any other exception.
  - Python `float` results are idealized as exact rationals `ℚ`; no claim
    inspects a float value.  Source behaviours that cannot be represented
    (e.g. irrational powers, `str % x` formatting, structural `==` on two
    distinct list objects) are mapped to the explicit marker
    `RErr.unmodeled`, never silently approximated.
-/

namespace Puffing

/-! ## AST (`src/puffing/src/ast_nodes.py`) -/

/-- Binary operator tags (the `TokenType` members used by `BinaryOpNode`
and `CompoundAssignNode`). -/
inductive BOp where
  | plus | minus | mul | div | mod | pow
  | eq | ne | lt | gt | le | ge
  | land | lor
deriving DecidableEq

/-- Unary operator tags. -/
inductive UOp where
  | neg | lnot
deriving DecidableEq

/-- Target type of a cast (`TypeCastNode.target_type`). -/
inductive CastTy where
  | toInt | toFloat | toStr | toBool
deriving DecidableEq

/-- AST nodes, one constructor per `ast_nodes.py` class that the claims
need.  `num`/`fnum` split `NumberNode` by payload type (Python int/float).
`increment` carries the operator direction (`isInc`) and the prefix flag.
`callLambda` is `FunctionCallNode` whose `name` field holds a `LambdaNode`
(immediately invoked lambda). -/
inductive Node where
  | num (n : Int)
  | fnum (q : ℚ)
  | strLit (s : String)
  | boolLit (b : Bool)
  | arrLit (elems : List Node)
  | varAccess (name : String)
  | varAssign (name : String) (constant : Bool) (value : Node)
  | varReassign (name : String) (value : Node)
  | compoundAssign (name : String) (op : BOp) (value : Node)
  | increment (name : String) (isInc : Bool) (pre : Bool)
  | indexAccess (container : Node) (key : Node)
  | indexAssign (target : Node) (value : Node)
  | binop (op : BOp) (l : Node) (r : Node)
  | unary (op : UOp) (e : Node)
  | cast (ty : CastTy) (e : Node)
  | formatN (e : Node) (precision : Int)
  | ifN (cond : Node) (thenB : Node) (elifs : List (Node × Node)) (elseB : Option Node)
  | forLoop (var : String) (iterable : Node) (body : Node)
  | whileLoop (cond : Node) (body : Node)
  | doWhileLoop (body : Node) (cond : Node)
  | breakN
  | continueN
  | returnN (value : Option Node)
  | block (stmts : List Node)
  | funcDef (name : String) (params : List String) (body : Node)
  | lambdaN (params : List String) (isExpr : Bool) (body : Node)
  | call (name : String) (args : List Node)
  | callLambda (params : List String) (isExpr : Bool) (body : Node) (args : List Node)
  | rangeN (startN : Node) (stopN : Option Node) (stepN : Option Node)

/-! ## Runtime values and state (`interpreter.py`) -/

/-- Runtime values.  Arrays are heap references (`varr addr`); scalars are
immediate.  `vfunc` is `PuffingFunction`, `vlambda` is `PuffingLambda`. -/
inductive Val where
  | none
  | vint (n : Int)
  | vfloat (q : ℚ)
  | vbool (b : Bool)
  | vstr (s : String)
  | varr (addr : Nat)
  | vfunc (name : String) (params : List String) (body : Node)
  | vlambda (params : List String) (isExpr : Bool) (body : Node)

/-- Failure outcomes.  `runtimeErr`/`varNotDefined` are the interpreter's
typed errors (`PuffingRuntimeError` and its subclass
`VariableNotDefinedError` — the only two the interpreter ever raises).
The `host*` constructors are *untyped Python exceptions* escaping the
evaluator (`ZeroDivisionError`, `TypeError`, `ValueError`,
`RecursionError`); the source has no handler for any of them.
`unmodeled` marks source behaviour outside this embedding. -/
inductive RErr where
  | runtimeErr (msg : String)
  | varNotDefined (name : String)
  | hostZeroDivision
  | hostTypeError
  | hostValueError
  | hostRecursion
  | unmodeled (what : String)

/-- Evaluation outcome: a value, a raised error, or one of the three
control-flow exceptions (`BreakException`, `ContinueException`,
`ReturnException`). -/
inductive Res where
  | ok (v : Val)
  | err (e : RErr)
  | brk
  | cont
  | ret (v : Val)

/-- Interpreter state: the flat name→value mapping (`self.variables`),
the constant-name set (`self.constants`) and the heap backing all array
values. -/
structure St where
  vars : String → Option Val
  consts : String → Bool
  heap : List (List Val)

def St.setVar (s : St) (n : String) (v : Val) : St :=
  { s with vars := fun m => if m = n then some v else s.vars m }

def St.delVar (s : St) (n : String) : St :=
  { s with vars := fun m => if m = n then Option.none else s.vars m }

/-- Restore a name to a previous `Option Val` binding (used by the
for-loop `finally` block: re-bind if it existed, `pop` otherwise). -/
def St.setVarOpt (s : St) (n : String) (ov : Option Val) : St :=
  match ov with
  | some v => s.setVar n v
  | Option.none => s.delVar n

def St.addConst (s : St) (n : String) : St :=
  { s with consts := fun m => if m = n then true else s.consts m }

def St.heapGet (s : St) (a : Nat) : Option (List Val) :=
  s.heap.get? a

def St.heapSet (s : St) (a : Nat) (l : List Val) : St :=
  { s with heap := s.heap.set a l }

/-- Allocate a fresh array on the heap, returning its value. -/
def St.alloc (s : St) (l : List Val) : Val × St :=
  (.varr s.heap.length, { s with heap := s.heap ++ [l] })

/-- The state a fresh `Interpreter()` starts in. -/
def initSt : St := ⟨fun _ => Option.none, fun _ => false, []⟩

/-! ## Python-semantics helpers -/

/-- Python `type(v).__name__`, as used in error messages. -/
def typeName : Val → String
  | .none => "NoneType"
  | .vint _ => "int"
  | .vfloat _ => "float"
  | .vbool _ => "bool"
  | .vstr _ => "str"
  | .varr _ => "list"
  | .vfunc _ _ _ => "PuffingFunction"
  | .vlambda _ _ _ => "PuffingLambda"

/-- A Python number: either an int or a float.  Crucially, Python `bool`
is a subclass of `int`, so `True`/`False` participate in arithmetic and
indexing as `1`/`0`. -/
inductive PyNum where
  | pint (n : Int)
  | pfloat (q : ℚ)

def PyNum.q : PyNum → ℚ
  | .pint n => (n : ℚ)
  | .pfloat q => q

/-- Values accepted by Python numeric operators. -/
def toNum : Val → Option PyNum
  | .vint n => some (.pint n)
  | .vbool b => some (.pint (cond b 1 0))
  | .vfloat q => some (.pfloat q)
  | _ => Option.none

/-- `isinstance(v, int)` — true for ints *and* bools (Python subclassing);
returns the int value used for indexing. -/
def pyIndexInt : Val → Option Int
  | .vint n => some n
  | .vbool b => some (cond b 1 0)
  | _ => Option.none

/-- Python `v == 0` for the zero-divisor checks (`right == 0`).
True for `0`, `0.0` and `False`; False for every non-numeric value. -/
def pyEqZero (v : Val) : Bool :=
  match toNum v with
  | some p => p.q = 0
  | Option.none => false

/-- `Interpreter.is_truthy` (needs the heap for container emptiness). -/
def truthy (s : St) : Val → Bool
  | .none => false
  | .vbool b => b
  | .vint n => n ≠ 0
  | .vfloat q => q ≠ 0
  | .vstr t => t.length > 0
  | .varr a => ((s.heapGet a).getD []).length > 0
  | .vfunc _ _ _ => true
  | .vlambda _ _ _ => true

/-- Python `str(v)` for scalar values (used by the `+` string-coercion
branch).  Containers and functions would need heap-recursive printing the
claims never exercise; they are routed to `unmodeled` by the caller. -/
def pyStrScalar : Val → Option String
  | .none => some "None"
  | .vint n => some (toString n)
  | .vbool b => some (cond b "True" "False")
  | .vstr t => some t
  | _ => Option.none

/-- Int/float promoting addition (raw Python `+` on numbers). -/
def numAdd : PyNum → PyNum → Val
  | .pint a, .pint b => .vint (a + b)
  | a, b => .vfloat (a.q + b.q)

def numSub : PyNum → PyNum → Val
  | .pint a, .pint b => .vint (a - b)
  | a, b => .vfloat (a.q - b.q)

def numMul : PyNum → PyNum → Val
  | .pint a, .pint b => .vint (a * b)
  | a, b => .vfloat (a.q * b.q)

/-- Python `%` on numbers with a *nonzero* divisor (floor convention:
the result has the divisor's sign; `Int.fmod` matches it). -/
def numMod : PyNum → PyNum → Val
  | .pint a, .pint b => .vint (Int.fmod a b)
  | a, b => .vfloat (a.q - b.q * ⌊a.q / b.q⌋)

/-- Python `**`.  Int base/exponent with nonnegative exponent stays int;
a negative int exponent gives a float (`ZeroDivisionError` on base 0).
Float exponents may be irrational — outside the embedding. -/
def numPow : PyNum → PyNum → Res
  | .pint a, .pint b =>
      if 0 ≤ b then .ok (.vint (a ^ b.toNat))
      else if a = 0 then .err .hostZeroDivision
      else .ok (.vfloat ((a : ℚ) ^ b.toNat)⁻¹)
  | .pfloat q, .pint b =>
      if 0 ≤ b then .ok (.vfloat (q ^ b.toNat))
      else if q = 0 then .err .hostZeroDivision
      else .ok (.vfloat (q ^ b.toNat)⁻¹)
  | _, .pfloat _ => .err (.unmodeled "float exponent")

/-- Raw Python `+` (no Puffing string-coercion): numbers, `str + str`,
`list + list` (fresh list).  Anything else is a host `TypeError`. -/
def rawAdd (s : St) (l r : Val) : Res × St :=
  match toNum l, toNum r with
  | some a, some b => (.ok (numAdd a b), s)
  | _, _ =>
    match l, r with
    | .vstr a, .vstr b => (.ok (.vstr (a ++ b)), s)
    | .varr a, .varr b =>
        let la := (s.heapGet a).getD []
        let lb := (s.heapGet b).getD []
        let (v, s') := s.alloc (la ++ lb)
        (.ok v, s')
    | _, _ => (.err .hostTypeError, s)

/-- Python `*`: numbers, string repetition, list repetition. -/
def rawMul (s : St) (l r : Val) : Res × St :=
  match toNum l, toNum r with
  | some a, some b => (.ok (numMul a b), s)
  | _, _ =>
    match l, r with
    | .vstr t, .vint n => (.ok (.vstr (String.join (List.replicate n.toNat t))), s)
    | .vint n, .vstr t => (.ok (.vstr (String.join (List.replicate n.toNat t))), s)
    | .varr a, .vint n =>
        let la := (s.heapGet a).getD []
        let (v, s') := s.alloc (List.flatten (List.replicate n.toNat la))
        (.ok v, s')
    | .vint n, .varr a =>
        let la := (s.heapGet a).getD []
        let (v, s') := s.alloc (List.flatten (List.replicate n.toNat la))
        (.ok v, s')
    | _, _ => (.err .hostTypeError, s)

def rawSub (l r : Val) : Res :=
  match toNum l, toNum r with
  | some a, some b => .ok (numSub a b)
  | _, _ => .err .hostTypeError

/-- Python `/` on values *after* the interpreter's `right == 0` check:
true division, always a float.  Non-numeric operands: host `TypeError`. -/
def rawDiv (l r : Val) : Res :=
  match toNum l, toNum r with
  | some a, some b => .ok (.vfloat (a.q / b.q))
  | _, _ => .err .hostTypeError

/-- Python `%` with *no* zero check (the interpreter has none for `%`):
a zero divisor raises the untyped host `ZeroDivisionError`. -/
def rawMod (l r : Val) : Res :=
  match toNum l, toNum r with
  | some a, some b =>
      if b.q = 0 then .err .hostZeroDivision else .ok (numMod a b)
  | _, _ =>
      match l with
      | .vstr _ => .err (.unmodeled "str % formatting")
      | _ => .err .hostTypeError

def rawPow (l r : Val) : Res :=
  match toNum l, toNum r with
  | some a, some b => numPow a b
  | _, _ => .err .hostTypeError

/-- Python `==`.  Numeric values compare by value across int/float/bool;
`None` equals only `None`; strings compare to strings; a list equals
itself (same object); structural comparison of two *distinct* list
objects is outside the embedding (`Option.none`). -/
def pyEqB : Val → Val → Option Bool
  | l, r =>
    match toNum l, toNum r with
    | some a, some b => some (decide (a.q = b.q))
    | _, _ =>
      match l, r with
      | .none, .none => some true
      | .none, _ => some false
      | _, .none => some false
      | .vstr a, .vstr b => some (decide (a = b))
      | .vstr _, _ => some false
      | _, .vstr _ => some false
      | .varr a, .varr b => if a = b then some true else Option.none
      | .varr _, _ => some false
      | _, .varr _ => some false
      | _, _ => Option.none

/-- Python `<` (and friends) as a three-way comparison: numbers by value,
strings lexicographically; mixed kinds raise host `TypeError`; ordering
two lists is outside the embedding. -/
def pyCmp : Val → Val → Except RErr Ordering
  | l, r =>
    match toNum l, toNum r with
    | some a, some b => .ok (compare a.q b.q)
    | _, _ =>
      match l, r with
      | .vstr a, .vstr b => .ok (compare a b)
      | .varr _, .varr _ => .error (.unmodeled "list ordering")
      | _, _ => .error .hostTypeError

/-- `Interpreter.eval_binary_op`, given both operand values.  Faithful to
the source's dispatch order; `+` applies the string-coercion and
array-concatenation special cases first; `/` checks `right == 0` and
raises the *typed* `PuffingRuntimeError("Division by zero")`; `%` has no
such check. -/
def evalBinRaw (s : St) (op : BOp) (l r : Val) : Res × St :=
  match op with
  | .plus =>
    match l, r with
    | .vstr _, _ | _, .vstr _ =>
        match pyStrScalar l, pyStrScalar r with
        | some a, some b => (.ok (.vstr (a ++ b)), s)
        | _, _ => (.err (.unmodeled "str() of container"), s)
    | _, _ => rawAdd s l r
  | .minus => (rawSub l r, s)
  | .mul => rawMul s l r
  | .div =>
      if pyEqZero r then (.err (.runtimeErr "Division by zero"), s)
      else (rawDiv l r, s)
  | .mod => (rawMod l r, s)
  | .pow => (rawPow l r, s)
  | .eq =>
      match pyEqB l r with
      | some b => (.ok (.vbool b), s)
      | Option.none => (.err (.unmodeled "structural list equality"), s)
  | .ne =>
      match pyEqB l r with
      | some b => (.ok (.vbool !b), s)
      | Option.none => (.err (.unmodeled "structural list equality"), s)
  | .lt =>
      match pyCmp l r with
      | .ok o => (.ok (.vbool (o = Ordering.lt)), s)
      | .error e => (.err e, s)
  | .gt =>
      match pyCmp l r with
      | .ok o => (.ok (.vbool (o = Ordering.gt)), s)
      | .error e => (.err e, s)
  | .le =>
      match pyCmp l r with
      | .ok o => (.ok (.vbool (o ≠ Ordering.gt)), s)
      | .error e => (.err e, s)
  | .ge =>
      match pyCmp l r with
      | .ok o => (.ok (.vbool (o ≠ Ordering.lt)), s)
      | .error e => (.err e, s)
  | .land => (.ok (.vbool (truthy s l && truthy s r)), s)
  | .lor => (.ok (.vbool (truthy s l || truthy s r)), s)

/-- `Interpreter.eval_unary_op` on the operand value. -/
def evalUnaryRaw (s : St) (op : UOp) (v : Val) : Res :=
  match op with
  | .neg =>
    match toNum v with
    | some (.pint n) => .ok (.vint (-n))
    | some (.pfloat q) => .ok (.vfloat (-q))
    | Option.none => .err .hostTypeError
  | .lnot => .ok (.vbool (!truthy s v))

/-- `CompoundAssignNode` arithmetic: raw Python operators, with the
source's zero check on `/` only (lines 494–499 of interpreter.py). -/
def compoundOp (s : St) (op : BOp) (cur v : Val) : Res × St :=
  match op with
  | .plus => rawAdd s cur v
  | .minus => (rawSub cur v, s)
  | .mul => rawMul s cur v
  | .div =>
      if pyEqZero v then (.err (.runtimeErr "Division by zero"), s)
      else (rawDiv cur v, s)
  | .mod => (rawMod cur v, s)
  | .pow => (rawPow cur v, s)
  | _ => (.err (.runtimeErr "Unknown compound operator"), s)

/-- Python `int(v)` as used by the `range` node (truncation toward zero
for floats; `int` of a string is outside the embedding). -/
def pyToInt : Val → Except RErr Int
  | .vint n => .ok n
  | .vbool b => .ok (cond b 1 0)
  | .vfloat q => .ok (if 0 ≤ q then ⌊q⌋ else ⌈q⌉)
  | .vstr _ => .error (.unmodeled "int() of str")
  | _ => .error .hostTypeError

/-- `list(range(start, stop, step))`: Python `range` semantics, exclusive
stop; `step = 0` raises `ValueError`. -/
def pyRange (start stop step : Int) : Except RErr (List Int) :=
  if step = 0 then .error .hostValueError
  else if 0 < step then
    .ok ((List.range (((stop - start) + step - 1) / step).toNat).map
          (fun i => start + step * i))
  else
    .ok ((List.range (((start - stop) + (-step) - 1) / (-step)).toNat).map
          (fun i => start + step * i))

/-- Bind parameters to argument values in order (`zip(params, args)`). -/
def bindParams : List String → List Val → St → St
  | p :: ps, v :: vs, s => bindParams ps vs (s.setVar p v)
  | _, _, s => s

/-- `IndexAccessNode` evaluation once container and key values are known
(interpreter.py lines 203–248).  Error message texts follow the source's
f-strings with surrounding quote characters omitted. -/
def indexRead (s : St) (container key : Val) : Res :=
  match container with
  | .varr addr =>
      let l := (s.heapGet addr).getD []
      let n := l.length
      match pyIndexInt key with
      | Option.none =>
          let tn := typeName key
          .err (.runtimeErr s!"Array/string index must be an integer, got {tn}")
      | some k =>
        if k < 0 then
          let idx := (n : Int) + k
          if 0 ≤ idx then .ok (l.getD idx.toNat .none)
          else .err (.runtimeErr s!"Index {k} out of range for list of length {n}")
        else
          let zb := k - 1
          if zb < 0 then .err (.runtimeErr s!"Index {k} is invalid (indices start at 1)")
          else if zb < (n : Int) then .ok (l.getD zb.toNat .none)
          else .err (.runtimeErr s!"Index {k} out of range for list of length {n}")
  | .vstr t =>
      let l := t.data
      let n := l.length
      match pyIndexInt key with
      | Option.none =>
          let tn := typeName key
          .err (.runtimeErr s!"Array/string index must be an integer, got {tn}")
      | some k =>
        if k < 0 then
          let idx := (n : Int) + k
          if 0 ≤ idx then .ok (.vstr (String.mk [l.getD idx.toNat ' ']))
          else .err (.runtimeErr s!"Index {k} out of range for str of length {n}")
        else
          let zb := k - 1
          if zb < 0 then .err (.runtimeErr s!"Index {k} is invalid (indices start at 1)")
          else if zb < (n : Int) then .ok (.vstr (String.mk [l.getD zb.toNat ' ']))
          else .err (.runtimeErr s!"Index {k} out of range for str of length {n}")
  | _ =>
      let tn := typeName container
      .err (.runtimeErr s!"Cannot index {tn} (only arrays, strings, and dictionaries are indexable)")

/-- `IndexAssignNode` navigation and final store, once the key path has
been evaluated (interpreter.py lines 276–421).  The head of `path` is the
innermost key.  Dictionaries are outside the modelled value set, so only
the array branches appear; every other target takes the corresponding
typed error of the source. -/
def assignPath (s : St) (target : Val) : List Val → Val → Res × St
  | [], _ => (.err (.unmodeled "empty index path"), s)
  | [k], nv =>
    match target with
    | .varr addr =>
        let l := (s.heapGet addr).getD []
        let n := l.length
        match pyIndexInt k with
        | Option.none =>
            let tn := typeName k
            (.err (.runtimeErr s!"Array index must be an integer, got {tn}"), s)
        | some ki =>
          if ki < 0 then
            let idx := (n : Int) + ki
            if 0 ≤ idx then (.ok nv, s.heapSet addr (l.set idx.toNat nv))
            else (.err (.runtimeErr s!"Index {ki} out of range for array of length {n}"), s)
          else
            let zb := ki - 1
            if zb < 0 then
              (.err (.runtimeErr s!"Index {ki} is invalid (indices start at 1)"), s)
            else if zb < (n : Int) then (.ok nv, s.heapSet addr (l.set zb.toNat nv))
            else (.err (.runtimeErr s!"Index {ki} out of range for array of length {n}"), s)
    | _ =>
        let tn := typeName target
        (.err (.runtimeErr s!"Cannot assign to index/key of {tn} (only arrays and dictionaries support assignment)"), s)
  | k :: rest, nv =>
    match target with
    | .varr addr =>
        let l := (s.heapGet addr).getD []
        let n := l.length
        match pyIndexInt k with
        | Option.none =>
            let tn := typeName k
            (.err (.runtimeErr s!"Array index must be an integer, got {tn}"), s)
        | some ki =>
          if ki < 0 then
            let idx := (n : Int) + ki
            if 0 ≤ idx then assignPath s (l.getD idx.toNat .none) rest nv
            else (.err (.runtimeErr s!"Index {ki} out of range for array of length {n}"), s)
          else
            let zb := ki - 1
            if zb < 0 then
              (.err (.runtimeErr s!"Index {ki} is invalid (indices start at 1)"), s)
            else if zb < (n : Int) then assignPath s (l.getD zb.toNat .none) rest nv
            else (.err (.runtimeErr s!"Index {ki} out of range for array of length {n}"), s)
    | _ =>
        let tn := typeName target
        (.err (.runtimeErr s!"Cannot index {tn} (expected array or dictionary for nested indexing)"), s)

/-- Builtin names `eval_function_call` dispatches on beyond the ones the
claims exercise (`len`, `push`, `pop`, which are modelled in full); a
call reaching one of these is marked `unmodeled` instead of falling
through to the not-defined error. -/
def otherBuiltinNames : List String :=
  ["set_add", "set_remove", "set_discard", "set_clear", "set_contains",
   "set_union", "set_intersection", "set_difference", "set_symmetric_difference",
   "set_is_subset", "set_is_superset", "set_is_disjoint", "set_copy",
   "set_to_array", "array_to_set",
   "keys", "values", "items", "has_key", "set", "get", "delete_key",
   "clear_dict", "update", "copy_dict", "merge",
   "shift", "unshift", "insert", "remove", "clear", "reverse", "sort",
   "contains", "index_of", "slice", "join", "sum", "min", "max"]

mutual

/-- `Interpreter.eval`.  The fuel parameter models the host call-stack:
every recursive evaluation step burns one unit, and exhaustion is the
host's `RecursionError` (`hostRecursion`), which — exactly as in the
source, which installs no handler for it — propagates like any other
exception. -/
def eval : Nat → Node → St → Res × St
  | 0, _, s => (.err .hostRecursion, s)
  | Nat.succ f, node, s =>
    match node with
    | .funcDef name params body =>
        let fv := Val.vfunc name params body
        (.ok fv, s.setVar name fv)
    | .lambdaN params isExpr body => (.ok (.vlambda params isExpr body), s)
    | .returnN value =>
        match value with
        | Option.none => (.ret .none, s)
        | some vn =>
          match eval f vn s with
          | (.ok v, s1) => (.ret v, s1)
          | other => other
    | .num n => (.ok (.vint n), s)
    | .fnum q => (.ok (.vfloat q), s)
    | .strLit t => (.ok (.vstr t), s)
    | .boolLit b => (.ok (.vbool b), s)
    | .arrLit elems =>
        match evalArgs f elems s with
        | (.error r, s1) => (r, s1)
        | (.ok vs, s1) =>
            let (v, s2) := s1.alloc vs
            (.ok v, s2)
    | .indexAccess c k =>
        match eval f c s with
        | (.ok cv, s1) =>
          match eval f k s1 with
          | (.ok kv, s2) => (indexRead s2 cv kv, s2)
          | other => other
        | other => other
    | .indexAssign target value =>
        match eval f value s with
        | (.ok nv, s1) =>
          match collectPath f target [] s1 with
          | (.error r, s2) => (r, s2)
          | (.ok (root, path), s2) =>
            match root with
            | .varAccess nm =>
              match s2.vars nm with
              | Option.none => (.err (.varNotDefined nm), s2)
              | some tgt =>
                if s2.consts nm then
                  (.err (.runtimeErr s!"Cannot modify constant {nm}"), s2)
                else assignPath s2 tgt path nv
            | _ => (.err (.runtimeErr "Can only assign to variable indices/keys"), s2)
        | other => other
    | .varAssign name constant value =>
        match eval f value s with
        | (.ok v, s1) =>
            let s2 := s1.setVar name v
            (.ok v, if constant then s2.addConst name else s2)
        | other => other
    | .varReassign name value =>
        match s.vars name with
        | Option.none => (.err (.varNotDefined name), s)
        | some _ =>
          if s.consts name then
            (.err (.runtimeErr s!"Cannot reassign constant {name}"), s)
          else
            match eval f value s with
            | (.ok v, s1) => (.ok v, s1.setVar name v)
            | other => other
    | .compoundAssign name op value =>
        match s.vars name with
        | Option.none => (.err (.varNotDefined name), s)
        | some cur =>
          if s.consts name then
            (.err (.runtimeErr s!"Cannot reassign constant {name}"), s)
          else
            match eval f value s with
            | (.ok v, s1) =>
              match compoundOp s1 op cur v with
              | (.ok res, s2) => (.ok res, s2.setVar name res)
              | other => other
            | other => other
    | .increment name isInc pre =>
        match s.vars name with
        | Option.none => (.err (.varNotDefined name), s)
        | some cur =>
          if s.consts name then
            (.err (.runtimeErr s!"Cannot modify constant {name}"), s)
          else
            match toNum cur with
            | Option.none => (.err .hostTypeError, s)
            | some c =>
                let nv := if isInc then numAdd c (.pint 1) else numSub c (.pint 1)
                (.ok (if pre then nv else cur), s.setVar name nv)
    | .varAccess name =>
        match s.vars name with
        | Option.none => (.err (.varNotDefined name), s)
        | some v => (.ok v, s)
    | .rangeN startN stopN stepN =>
        match eval f startN s with
        | (.ok sv, s1) =>
          match evalOpt f stopN s1 with
          | (.error r, s2) => (r, s2)
          | (.ok stopV, s2) =>
            match evalOpt f stepN s2 with
            | (.error r, s3) => (r, s3)
            | (.ok stepV, s3) =>
                -- `if stop is None: stop = start; start = 1`
                let se : Val × Val :=
                  match stopV with
                  | Option.none => (.vint 1, sv)
                  | some stv => (sv, stv)
                let stepVal := (stepV.getD (.vint 1))
                match pyToInt se.1, pyToInt se.2, pyToInt stepVal with
                | .ok a, .ok b, .ok st =>
                  match pyRange a (b + 1) st with
                  | .ok ns =>
                      let (v, s4) := s3.alloc (ns.map Val.vint)
                      (.ok v, s4)
                  | .error e => (.err e, s3)
                | .error e, _, _ => (.err e, s3)
                | _, .error e, _ => (.err e, s3)
                | _, _, .error e => (.err e, s3)
        | other => other
    | .call name args => evalCall f name args s
    | .callLambda params isExpr body args =>
        match evalArgs f args s with
        | (.error r, s1) => (r, s1)
        | (.ok vs, s1) => callLambda f params isExpr body vs s1
    | .binop op l r =>
        match eval f l s with
        | (.ok lv, s1) =>
          match eval f r s1 with
          | (.ok rv, s2) => evalBinRaw s2 op lv rv
          | other => other
        | other => other
    | .unary op e =>
        match eval f e s with
        | (.ok v, s1) => (evalUnaryRaw s1 op v, s1)
        | other => other
    | .cast _ e =>
        match eval f e s with
        | (.ok _, s1) => (.err (.unmodeled "type cast"), s1)
        | other => other
    | .formatN e _ =>
        match eval f e s with
        | (.ok _, s1) => (.err (.unmodeled "number formatting"), s1)
        | other => other
    | .ifN cond thenB elifs elseB =>
        match eval f cond s with
        | (.ok cv, s1) =>
          if truthy s1 cv then eval f thenB s1
          else evalElifs f elifs elseB s1
        | other => other
    | .forLoop var iterN body =>
        match eval f iterN s with
        | (.ok v, s1) =>
          match v with
          | .varr addr =>
              -- save the loop variable, run, then the `finally` restore
              let old := s1.vars var
              let (r, s2) := forArr f var body addr 0 .none s1
              (r, s2.setVarOpt var old)
          | .vstr t =>
              let old := s1.vars var
              let chars := t.data.map (fun ch => Val.vstr (String.mk [ch]))
              let (r, s2) := forList f var body chars .none s1
              (r, s2.setVarOpt var old)
          | _ => (.err (.runtimeErr "For loop requires an iterable"), s1)
        | other => other
    | .whileLoop cond body => whileAux f cond body .none s
    | .doWhileLoop body cond => doWhileAux f body cond .none s
    | .breakN => (.brk, s)
    | .continueN => (.cont, s)
    | .block stmts => evalSeq f stmts .none s

/-- Evaluate an optional sub-node (used by `RangeNode`). -/
def evalOpt : Nat → Option Node → St → (Except Res (Option Val)) × St
  | 0, _, s => (.error (.err .hostRecursion), s)
  | Nat.succ f, nodes, s =>
    match nodes with
    | Option.none => (.ok Option.none, s)
    | some n =>
      match eval f n s with
      | (.ok v, s1) => (.ok (some v), s1)
      | (other, s1) => (.error other, s1)

/-- Evaluate a list of argument nodes left to right; the first abnormal
outcome aborts the list (a Python list comprehension over `self.eval`). -/
def evalArgs : Nat → List Node → St → (Except Res (List Val)) × St
  | 0, _, s => (.error (.err .hostRecursion), s)
  | Nat.succ f, nodes, s =>
    match nodes with
    | [] => (.ok [], s)
    | n :: rest =>
      match eval f n s with
      | (.ok v, s1) =>
        match evalArgs f rest s1 with
        | (.ok vs, s2) => (.ok (v :: vs), s2)
        | other => other
      | (other, s1) => (.error other, s1)

/-- `BlockNode` body: statements in order, value of the last one
(`None` for an empty block); abnormal outcomes propagate. -/
def evalSeq : Nat → List Node → Val → St → Res × St
  | 0, _, _, s => (.err .hostRecursion, s)
  | Nat.succ f, stmts, acc, s =>
    match stmts with
    | [] => (.ok acc, s)
    | n :: rest =>
      match eval f n s with
      | (.ok v, s1) => evalSeq f rest v s1
      | other => other

/-- The elif chain of `IfNode`. -/
def evalElifs : Nat → List (Node × Node) → Option Node → St → Res × St
  | 0, _, _, s => (.err .hostRecursion, s)
  | Nat.succ f, elifs, elseB, s =>
    match elifs with
    | [] =>
      match elseB with
      | some b => eval f b s
      | Option.none => (.ok .none, s)
    | (c, b) :: rest =>
      match eval f c s with
      | (.ok cv, s1) =>
          if truthy s1 cv then eval f b s1 else evalElifs f rest elseB s1
      | other => other

/-- Evaluate the key chain of an `IndexAssignNode` target, outermost key
first, building the path innermost-first (the `while
isinstance(current, IndexAccessNode): path.insert(0, ...)` loop). -/
def collectPath : Nat → Node → List Val → St → (Except Res (Node × List Val)) × St
  | 0, _, _, s => (.error (.err .hostRecursion), s)
  | Nat.succ f, cur, acc, s =>
    match cur with
    | .indexAccess c k =>
      match eval f k s with
      | (.ok kv, s1) => collectPath f c (kv :: acc) s1
      | (other, s1) => (.error other, s1)
    | root => (.ok (root, acc), s)

/-- `PuffingFunction.call`: arity check, snapshot of `variables`, bind
parameters, run the body, catch `ReturnException`, and — in `finally`,
i.e. on *every* outcome including errors — restore the snapshot. -/
def callFunction : Nat → String → List String → Node → List Val → St → Res × St
  | 0, _, _, _, _, s => (.err .hostRecursion, s)
  | Nat.succ f, name, params, body, args, s =>
    if args.length ≠ params.length then
      let np := params.length
      let na := args.length
      (.err (.runtimeErr s!"Function {name} expects {np} arguments, got {na}"), s)
    else
      let saved := s.vars
      let s1 := bindParams params args s
      let (r, s2) := eval f body s1
      let s3 : St := { s2 with vars := saved }
      match r with
      | .ret v => (.ok v, s3)
      | other => (other, s3)

/-- `PuffingLambda.call` — identical shape; the `is_expression` flag is
carried but, as in the source (both branches of lines 105–112 are the
same), does not change behaviour. -/
def callLambda : Nat → List String → Bool → Node → List Val → St → Res × St
  | 0, _, _, _, _, s => (.err .hostRecursion, s)
  | Nat.succ f, params, _isExpr, body, args, s =>
    if args.length ≠ params.length then
      let np := params.length
      let na := args.length
      (.err (.runtimeErr s!"Lambda expects {np} arguments, got {na}"), s)
    else
      let saved := s.vars
      let s1 := bindParams params args s
      let (r, s2) := eval f body s1
      let s3 : St := { s2 with vars := saved }
      match r with
      | .ret v => (.ok v, s3)
      | other => (other, s3)

/-- `Interpreter.eval_function_call`: user functions and lambdas first
(when the name is bound to one), then the builtin table.  `len`, `push`
and `pop` are modelled in full; the remaining builtins are explicit
`unmodeled` markers; anything else is the library fallthrough
(`Function not defined` / `is not a function`). -/
def evalCall : Nat → String → List Node → St → Res × St
  | 0, _, _, s => (.err .hostRecursion, s)
  | Nat.succ f, name, args, s =>
    match s.vars name with
    | some (.vfunc fn ps body) =>
        match evalArgs f args s with
        | (.error r, s1) => (r, s1)
        | (.ok vs, s1) => callFunction f fn ps body vs s1
    | some (.vlambda ps ie body) =>
        match evalArgs f args s with
        | (.error r, s1) => (r, s1)
        | (.ok vs, s1) => callLambda f ps ie body vs s1
    | _ =>
      if name = "len" then
        match args with
        | [a] =>
          match eval f a s with
          | (.ok v, s1) =>
            match v with
            | .vstr t => (.ok (.vint t.length), s1)
            | .varr ad => (.ok (.vint ((s1.heapGet ad).getD []).length), s1)
            | _ =>
                let tn := typeName v
                (.err (.runtimeErr s!"Object of type {tn} has no len()"), s1)
          | other => other
        | _ => (.err (.runtimeErr "len() takes exactly 1 argument"), s)
      else if name = "push" then
        match args with
        | [a0, a1] =>
          -- resolve a syntactically bare variable through to its binding
          match resolveArrArg f a0 s with
          | (.error r, s1) => (r, s1)
          | (.ok arr, s1) =>
            match eval f a1 s1 with
            | (.ok v, s2) =>
              match arr with
              | .varr addr =>
                  let l := (s2.heapGet addr).getD []
                  (.ok (.varr addr), s2.heapSet addr (l ++ [v]))
              | _ => (.err (.runtimeErr "push() requires an array"), s2)
            | other => other
        | _ => (.err (.runtimeErr "push() takes exactly 2 arguments (array, value)"), s)
      else if name = "pop" then
        match args with
        | [a0] =>
          match resolveArrArg f a0 s with
          | (.error r, s1) => (r, s1)
          | (.ok arr, s1) =>
            match arr with
            | .varr addr =>
                let l := (s1.heapGet addr).getD []
                if l.length = 0 then
                  (.err (.runtimeErr "pop() from empty array"), s1)
                else (.ok (.varr addr), s1.heapSet addr l.dropLast)
            | _ => (.err (.runtimeErr "pop() requires an array"), s1)
        | _ => (.err (.runtimeErr "pop() takes exactly 1 argument"), s)
      else if name ∈ otherBuiltinNames then
        (.err (.unmodeled name), s)
      else
        match s.vars name with
        | Option.none => (.err (.runtimeErr s!"Function {name} not defined"), s)
        | some _ => (.err (.runtimeErr s!"{name} is not a function"), s)

/-- The shared first-argument resolution of mutating container builtins
(`push`, `pop`, …): a syntactically bare variable is checked for
existence and constness *before* anything is evaluated, and resolves to
its bound value; any other expression is evaluated normally. -/
def resolveArrArg : Nat → Node → St → (Except Res Val) × St
  | 0, _, s => (.error (.err .hostRecursion), s)
  | Nat.succ f, a0, s =>
    match a0 with
    | .varAccess nm =>
      match s.vars nm with
      | Option.none => (.error (.err (.varNotDefined nm)), s)
      | some v =>
        if s.consts nm then
          (.error (.err (.runtimeErr s!"Cannot modify constant {nm}")), s)
        else (.ok v, s)
    | _ =>
      match eval f a0 s with
      | (.ok v, s1) => (.ok v, s1)
      | (other, s1) => (.error other, s1)

/-- `WhileLoopNode`: condition inside the outer `try` (so a break raised
by the condition ends the loop), body inside the inner `try` (continue
restarts the check, break ends the loop), result is the last completed
body value. -/
def whileAux : Nat → Node → Node → Val → St → Res × St
  | 0, _, _, _, s => (.err .hostRecursion, s)
  | Nat.succ f, cond, body, acc, s =>
    match eval f cond s with
    | (.ok cv, s1) =>
      if truthy s1 cv then
        match eval f body s1 with
        | (.ok v, s2) => whileAux f cond body v s2
        | (.cont, s2) => whileAux f cond body acc s2
        | (.brk, s2) => (.ok acc, s2)
        | other => other
      else (.ok acc, s1)
    | (.brk, s1) => (.ok acc, s1)
    | other => other

/-- `DoWhileLoopNode` body step. -/
def doWhileAux : Nat → Node → Node → Val → St → Res × St
  | 0, _, _, _, s => (.err .hostRecursion, s)
  | Nat.succ f, body, cond, acc, s =>
    match eval f body s with
    | (.ok v, s1) => doWhileCond f body cond v s1
    | (.cont, s1) => doWhileCond f body cond acc s1
    | (.brk, s1) => (.ok acc, s1)
    | other => other

/-- `DoWhileLoopNode` condition step (still inside the outer `try`). -/
def doWhileCond : Nat → Node → Node → Val → St → Res × St
  | 0, _, _, _, s => (.err .hostRecursion, s)
  | Nat.succ f, body, cond, acc, s =>
    match eval f cond s with
    | (.ok cv, s1) =>
        if truthy s1 cv then doWhileAux f body cond acc s1 else (.ok acc, s1)
    | (.brk, s1) => (.ok acc, s1)
    | other => other

/-- `ForLoopNode` over a (live, possibly mutated) array: Python's list
iterator re-checks the current length each step. -/
def forArr : Nat → String → Node → Nat → Nat → Val → St → Res × St
  | 0, _, _, _, _, _, s => (.err .hostRecursion, s)
  | Nat.succ f, var, body, addr, i, acc, s =>
    let l := (s.heapGet addr).getD []
    if i < l.length then
      let s1 := s.setVar var (l.getD i .none)
      match eval f body s1 with
      | (.ok v, s2) => forArr f var body addr (i + 1) v s2
      | (.cont, s2) => forArr f var body addr (i + 1) acc s2
      | (.brk, s2) => (.ok acc, s2)
      | other => other
    else (.ok acc, s)

/-- `ForLoopNode` over the characters of a string. -/
def forList : Nat → String → Node → List Val → Val → St → Res × St
  | 0, _, _, _, _, s => (.err .hostRecursion, s)
  | Nat.succ f, var, body, elems, acc, s =>
    match elems with
    | [] => (.ok acc, s)
    | v :: rest =>
      let s1 := s.setVar var v
      match eval f body s1 with
      | (.ok v', s2) => forList f var body rest v' s2
      | (.cont, s2) => forList f var body rest acc s2
      | (.brk, s2) => (.ok acc, s2)
      | other => other

end

/-- `Interpreter.run`. -/
def run (fuel : Nat) (prog : Node) : Res × St :=
  eval fuel prog initSt

/-! ## Lexer (`src/puffing/src/lexer.py`) -/

/-- Tokens (`TokenType` members plus their payloads).  Float literals
carry the exact decimal value as a rational. -/
inductive Token where
  | kwLet | kwLock | kwAs | kwIf | kwElif | kwElse | kwPrint | kwInput
  | kwLib | kwFor | kwIn | kwWhile | kwDo | kwBreak | kwContinue
  | tyInt | tyFloat | tyStr | tyBool
  | ident (s : String)
  | number (n : Int)
  | floatNumber (q : ℚ)
  | strTok (s : String)
  | kwTrue | kwFalse | kwAnd | kwOr | kwFun | kwLamb | kwReturn
  | plusT | minusT | mulT | divT | modT | powT | incrT | decrT
  | eqT | neT | ltT | gtT | leT | geT | notT
  | semi | lparen | rparen | lbrace | rbrace | lbracket | rbracket
  | dot | dollar | comma | colon | hash | arrow | eof

/-- Tokenizer outcomes.  `lexerError` is the typed `LexerError` the
source raises (only two raise sites exist: the unterminated-string check
in `Lexer.string` and the unknown-character fallthrough in
`Lexer.tokenize`; `Lexer.skip_block_comment` has none).  `hostError`
models the untyped `TypeError` crash of `result += None` when the input
ends in a backslash inside a string literal.  `outOfFuel` is the
iteration bound of this embedding, unreachable for the fuel `tokenize`
supplies. -/
inductive LexRes where
  | ok (toks : List Token)
  | lexerError (msg : String)
  | hostError
  | outOfFuel

/-- `Lexer.skip_single_line_comment`: to (and past) the newline. -/
def skipLine : List Char → List Char
  | [] => []
  | '\n' :: rest => rest
  | _ :: rest => skipLine rest

/-- `Lexer.skip_block_comment` after the `?-` has been consumed: scans
for `-?` and stops silently at end of input if it never appears. -/
def skipBlock : List Char → List Char
  | [] => []
  | '-' :: '?' :: rest => rest
  | _ :: rest => skipBlock rest

/-- The two ways `Lexer.string` can fail. -/
inductive StrFail where
  | unterminated
  | danglingEscape

/-- `Lexer.string` after the opening quote: accumulate until the closing
quote; a backslash escapes `n`, `t`, `"`, `\` and degrades to the raw
character otherwise; end of input inside the literal raises the typed
unterminated-string `LexerError` (`unterminated`) — unless the very last
character was a backslash, in which case `result += self.current_char`
concatenates `None` and crashes with an untyped host `TypeError`
(`danglingEscape`). -/
def lexString (acc : String) : List Char → Except StrFail (Token × List Char)
  | [] => .error .unterminated
  | '"' :: rest => .ok (.strTok acc, rest)
  | '\\' :: rest =>
    match rest with
    | [] => .error .danglingEscape
    | c :: rest2 =>
        let ch : Char :=
          if c = 'n' then '\n'
          else if c = 't' then '\t'
          else if c = '"' then '"'
          else if c = '\\' then '\\'
          else c
        lexString (acc.push ch) rest2
  | c :: rest => lexString (acc.push c) rest

/-- Digit run → natural number value. -/
def digitsToNat (ds : List Char) : Nat :=
  ds.foldl (fun acc c => acc * 10 + (c.toNat - '0'.toNat)) 0

/-- `Lexer.number`: an integer digit run, optionally followed by a
decimal point and a second digit run (only when a digit follows the
point), producing an int or float token. -/
def lexNumber (cs : List Char) : Token × List Char :=
  let whole := cs.takeWhile Char.isDigit
  let rest := cs.dropWhile Char.isDigit
  match rest with
  | '.' :: d :: _ =>
    if d.isDigit then
      let frac := (rest.drop 1).takeWhile Char.isDigit
      let rest2 := (rest.drop 1).dropWhile Char.isDigit
      (.floatNumber ((digitsToNat whole : ℚ) +
          (digitsToNat frac : ℚ) / ((10 : ℚ) ^ frac.length)), rest2)
    else (.number (digitsToNat whole), rest)
  | _ => (.number (digitsToNat whole), rest)

/-- `Lexer.identifier`: maximal alphanumeric/underscore run, checked
against the keyword table. -/
def lexIdent (cs : List Char) : Token × List Char :=
  let chars := cs.takeWhile (fun c => c.isAlphanum || c = '_')
  let rest := cs.dropWhile (fun c => c.isAlphanum || c = '_')
  let w := String.mk chars
  let tok : Token :=
    if w = "let" then .kwLet else if w = "lock" then .kwLock
    else if w = "as" then .kwAs else if w = "if" then .kwIf
    else if w = "elif" then .kwElif else if w = "else" then .kwElse
    else if w = "print" then .kwPrint else if w = "input" then .kwInput
    else if w = "lib" then .kwLib else if w = "for" then .kwFor
    else if w = "in" then .kwIn else if w = "while" then .kwWhile
    else if w = "do" then .kwDo else if w = "break" then .kwBreak
    else if w = "continue" then .kwContinue else if w = "int" then .tyInt
    else if w = "float" then .tyFloat else if w = "str" then .tyStr
    else if w = "bool" then .tyBool else if w = "true" then .kwTrue
    else if w = "false" then .kwFalse else if w = "and" then .kwAnd
    else if w = "or" then .kwOr else if w = "fun" then .kwFun
    else if w = "lamb" then .kwLamb else if w = "return" then .kwReturn
    else .ident w
  (tok, rest)

/-- Single-character operator/symbol table (the `elif` chain at the end
of `Lexer.tokenize`); `Option.none` is the unknown-character raise. -/
def singleCharTok (c : Char) : Option Token :=
  if c = '+' then some .plusT else if c = '-' then some .minusT
  else if c = '*' then some .mulT else if c = '/' then some .divT
  else if c = '%' then some .modT else if c = '=' then some .eqT
  else if c = '<' then some .ltT else if c = '>' then some .gtT
  else if c = '!' then some .notT else if c = ';' then some .semi
  else if c = '(' then some .lparen else if c = ')' then some .rparen
  else if c = '{' then some .lbrace else if c = '}' then some .rbrace
  else if c = '[' then some .lbracket else if c = ']' then some .rbracket
  else if c = '.' then some .dot else if c = '$' then some .dollar
  else if c = ',' then some .comma else if c = ':' then some .colon
  else if c = '#' then some .hash
  else Option.none

/-- Result of one iteration of the `while self.current_char` loop of
`Lexer.tokenize`: consume characters without emitting (whitespace,
comments), emit one token, or fail. -/
inductive LexStep where
  | skipTo (rest : List Char)
  | emit (tok : Token) (rest : List Char)
  | failUnterminated
  | failDangling
  | failUnknown (c : Char)

/-- One iteration of the tokenize loop on current character `c` with
remaining input `rest` (source order preserved: whitespace, comments,
numbers, strings, identifiers, two-character operators, single-character
symbols, unknown-character error). -/
def lexStep (c : Char) (rest : List Char) : LexStep :=
  if c.isWhitespace then .skipTo ((c :: rest).dropWhile Char.isWhitespace)
  else if c = '?' then
    match rest with
    | '-' :: rest2 => .skipTo (skipBlock rest2)
    | _ => .skipTo (skipLine rest)
  else if c.isDigit then
    let (tok, rest2) := lexNumber (c :: rest)
    .emit tok rest2
  else if c = '"' then
    match lexString "" rest with
    | .error .unterminated => .failUnterminated
    | .error .danglingEscape => .failDangling
    | .ok (tok, rest2) => .emit tok rest2
  else if c.isAlpha || c = '_' then
    let (tok, rest2) := lexIdent (c :: rest)
    .emit tok rest2
  else
    -- two-character operators first, in the source's order
    match c, rest with
    | '*', '*' :: rest2 => .emit .powT rest2
    | '+', '+' :: rest2 => .emit .incrT rest2
    | '-', '-' :: rest2 => .emit .decrT rest2
    | '<', '=' :: rest2 => .emit .leT rest2
    | '>', '=' :: rest2 => .emit .geT rest2
    | '!', '=' :: rest2 => .emit .neT rest2
    | '=', '>' :: rest2 => .emit .arrow rest2
    | _, _ =>
      match singleCharTok c with
      | some tok => .emit tok rest
      | Option.none => .failUnknown c

/-- The `while self.current_char` loop of `Lexer.tokenize`.  Each
iteration consumes at least one character, so the fuel `tokenize`
supplies can never run out. -/
def lexAux : Nat → List Char → LexRes
  | 0, _ => .outOfFuel
  | Nat.succ _, [] => .ok [.eof]
  | Nat.succ f, c :: rest =>
    match lexStep c rest with
    | .skipTo rest2 => lexAux f rest2
    | .emit tok rest2 =>
      match lexAux f rest2 with
      | .ok toks => .ok (tok :: toks)
      | other => other
    | .failUnterminated => .lexerError "Unterminated string"
    | .failDangling => .hostError
    | .failUnknown ch => .lexerError s!"Unknown character {ch}"

/-- `Lexer(source).tokenize()`. -/
def tokenize (src : String) : LexRes :=
  lexAux (src.length + 1) src.data

/-! ## Expression parser (`src/puffing/src/parser.py`)

The precedence ladder `expr → or_expr → and_expr → comparison →
arith_expr → term → power → unary → postfix → call → primary`,
embedded over the remaining-token list.  Statement parsing is not
needed by any claim and is not embedded; primaries that reach
statement-only syntax (`lamb`, dict/set literals, `input`) are explicit
`unmodeled` markers. -/

/-- Parser failure: `ParserError` or an unmodelled syntactic form.
`outOfFuel` is this embedding's recursion bound, never reached for the
fuel `parseExpr` supplies on terminating inputs. -/
inductive PErr where
  | parserError (msg : String)
  | unmodeledSyntax (what : String)
  | outOfFuel

/-- `self.peek(i)` over the remaining tokens (the lexer guarantees a
final `EOF`, and the source parser never advances past it). -/
def peekT (toks : List Token) (i : Nat) : Token :=
  toks.getD i .eof

/-- Map a type-keyword token to a cast target. -/
def castTyOf : Token → Option CastTy
  | .tyInt => some .toInt
  | .tyFloat => some .toFloat
  | .tyStr => some .toStr
  | .tyBool => some .toBool
  | _ => Option.none

/-- The callee name `FunctionCallNode` stores: the variable's name for a
bare identifier, `str(node)` (an AST repr, modelled opaquely) otherwise. -/
def calleeName : Node → String
  | .varAccess nm => nm
  | _ => "<non-variable callee>"

set_option maxHeartbeats 1600000

mutual

def pExpr : Nat → List Token → Except PErr (Node × List Token)
  | 0, _ => .error .outOfFuel
  | Nat.succ f, toks =>
    match pAnd f toks with
    | .error e => .error e
    | .ok (left, rest) => pOrLoop f left rest

/-- The `while current is OR` loop of `Parser.or_expr`. -/
def pOrLoop : Nat → Node → List Token → Except PErr (Node × List Token)
  | 0, _, _ => .error .outOfFuel
  | Nat.succ f, left, toks =>
    match toks with
    | .kwOr :: rest =>
      match pAnd f rest with
      | .error e => .error e
      | .ok (right, rest2) => pOrLoop f (.binop .lor left right) rest2
    | _ => .ok (left, toks)

def pAnd : Nat → List Token → Except PErr (Node × List Token)
  | 0, _ => .error .outOfFuel
  | Nat.succ f, toks =>
    match pComparison f toks with
    | .error e => .error e
    | .ok (left, rest) => pAndLoop f left rest

def pAndLoop : Nat → Node → List Token → Except PErr (Node × List Token)
  | 0, _, _ => .error .outOfFuel
  | Nat.succ f, left, toks =>
    match toks with
    | .kwAnd :: rest =>
      match pComparison f rest with
      | .error e => .error e
      | .ok (right, rest2) => pAndLoop f (.binop .land left right) rest2
    | _ => .ok (left, toks)

def pComparison : Nat → List Token → Except PErr (Node × List Token)
  | 0, _ => .error .outOfFuel
  | Nat.succ f, toks =>
    match pArith f toks with
    | .error e => .error e
    | .ok (left, rest) => pCompLoop f left rest

/-- All six comparison operators at one level, left-associative. -/
def pCompLoop : Nat → Node → List Token → Except PErr (Node × List Token)
  | 0, _, _ => .error .outOfFuel
  | Nat.succ f, left, toks =>
    let step (op : BOp) (rest : List Token) :
        Except PErr (Node × List Token) :=
      match pArith f rest with
      | .error e => .error e
      | .ok (right, rest2) => pCompLoop f (.binop op left right) rest2
    match toks with
    | .eqT :: rest => step .eq rest
    | .neT :: rest => step .ne rest
    | .ltT :: rest => step .lt rest
    | .gtT :: rest => step .gt rest
    | .leT :: rest => step .le rest
    | .geT :: rest => step .ge rest
    | _ => .ok (left, toks)

def pArith : Nat → List Token → Except PErr (Node × List Token)
  | 0, _ => .error .outOfFuel
  | Nat.succ f, toks =>
    match pTerm f toks with
    | .error e => .error e
    | .ok (left, rest) => pArithLoop f left rest

/-- `Parser.arith_expr`: `+`/`-`, left-associative. -/
def pArithLoop : Nat → Node → List Token → Except PErr (Node × List Token)
  | 0, _, _ => .error .outOfFuel
  | Nat.succ f, left, toks =>
    match toks with
    | .plusT :: rest =>
      match pTerm f rest with
      | .error e => .error e
      | .ok (right, rest2) => pArithLoop f (.binop .plus left right) rest2
    | .minusT :: rest =>
      match pTerm f rest with
      | .error e => .error e
      | .ok (right, rest2) => pArithLoop f (.binop .minus left right) rest2
    | _ => .ok (left, toks)

def pTerm : Nat → List Token → Except PErr (Node × List Token)
  | 0, _ => .error .outOfFuel
  | Nat.succ f, toks =>
    match pPower f toks with
    | .error e => .error e
    | .ok (left, rest) => pTermLoop f left rest

/-- `Parser.term`: `*`/`/`/`%`, left-associative. -/
def pTermLoop : Nat → Node → List Token → Except PErr (Node × List Token)
  | 0, _, _ => .error .outOfFuel
  | Nat.succ f, left, toks =>
    let step (op : BOp) (rest : List Token) :
        Except PErr (Node × List Token) :=
      match pPower f rest with
      | .error e => .error e
      | .ok (right, rest2) => pTermLoop f (.binop op left right) rest2
    match toks with
    | .mulT :: rest => step .mul rest
    | .divT :: rest => step .div rest
    | .modT :: rest => step .mod rest
    | _ => .ok (left, toks)

/-- `Parser.power`: right-associative via self-call on the right. -/
def pPower : Nat → List Token → Except PErr (Node × List Token)
  | 0, _ => .error .outOfFuel
  | Nat.succ f, toks =>
    match pUnary f toks with
    | .error e => .error e
    | .ok (left, rest) =>
      match rest with
      | .powT :: rest2 =>
        match pPower f rest2 with
        | .error e => .error e
        | .ok (right, rest3) => .ok (.binop .pow left right, rest3)
      | _ => .ok (left, rest)

def pUnary : Nat → List Token → Except PErr (Node × List Token)
  | 0, _ => .error .outOfFuel
  | Nat.succ f, toks =>
    match toks with
    | .minusT :: rest =>
      match pUnary f rest with
      | .error e => .error e
      | .ok (e, rest2) => .ok (.unary .neg e, rest2)
    | .notT :: rest =>
      match pUnary f rest with
      | .error e => .error e
      | .ok (e, rest2) => .ok (.unary .lnot e, rest2)
    | _ => pPostfix f toks

def pPostfix : Nat → List Token → Except PErr (Node × List Token)
  | 0, _ => .error .outOfFuel
  | Nat.succ f, toks =>
    match pCall f toks with
    | .error e => .error e
    | .ok (n, rest) => pIndexLoop f n rest

/-- The N-dimensional `expr[idx]` chain of `Parser.postfix`. -/
def pIndexLoop : Nat → Node → List Token → Except PErr (Node × List Token)
  | 0, _, _ => .error .outOfFuel
  | Nat.succ f, n, toks =>
    match toks with
    | .lbracket :: rest =>
      match pExpr f rest with
      | .error e => .error e
      | .ok (idx, rest2) =>
        match rest2 with
        | .rbracket :: rest3 => pIndexLoop f (.indexAccess n idx) rest3
        | _ => .error (.parserError "Expected RBRACKET")
    | _ => .ok (n, toks)

def pCall : Nat → List Token → Except PErr (Node × List Token)
  | 0, _ => .error .outOfFuel
  | Nat.succ f, toks =>
    match pPrimary f toks with
    | .error e => .error e
    | .ok (n, rest) => pCallLoop f n rest

/-- The `while True` postfix loop of `Parser.call`: type casts, calls
(with the `range(...)` desugaring and the immediately-invoked-lambda
case), and the `.Nf` format suffix. -/
def pCallLoop : Nat → Node → List Token → Except PErr (Node × List Token)
  | 0, _, _ => .error .outOfFuel
  | Nat.succ f, n, toks =>
    match toks with
    | .lparen :: rest =>
      match castTyOf (peekT rest 0), peekT rest 1 with
      | some ty, .rparen => pCallLoop f (.cast ty n) (rest.drop 2)
      | _, _ =>
        match pArgsOpt f rest with
        | .error e => .error e
        | .ok (args, rest2) =>
          match rest2 with
          | .rparen :: rest3 =>
            match n with
            | .varAccess "range" =>
              match args with
              | [a1] => pCallLoop f (.rangeN (.num 1) (some a1) (some (.num 1))) rest3
              | [a1, a2] => pCallLoop f (.rangeN a1 (some a2) (some (.num 1))) rest3
              | [a1, a2, a3] => pCallLoop f (.rangeN a1 (some a2) (some a3)) rest3
              | _ => .error (.parserError "range() takes 1, 2, or 3 arguments")
            | .lambdaN ps ie b => pCallLoop f (.callLambda ps ie b args) rest3
            | _ => pCallLoop f (.call (calleeName n) args) rest3
          | _ => .error (.parserError "Expected RPAREN")
    | .dot :: .number p :: restAfter =>
        match restAfter with
        | .ident "f" :: rest3 => pCallLoop f (.formatN n p) rest3
        | _ => .error (.parserError "Expected f after decimal precision")
    | .dot :: .floatNumber q :: restAfter =>
        match restAfter with
        | .ident "f" :: rest3 =>
            pCallLoop f (.formatN n (if 0 ≤ q then ⌊q⌋ else ⌈q⌉)) rest3
        | _ => .error (.parserError "Expected f after decimal precision")
    | _ => .ok (n, toks)

/-- Argument list, empty allowed (stops before the closing paren). -/
def pArgsOpt : Nat → List Token → Except PErr (List Node × List Token)
  | 0, _ => .error .outOfFuel
  | Nat.succ f, toks =>
    match toks with
    | .rparen :: _ => .ok ([], toks)
    | _ =>
      match pExpr f toks with
      | .error e => .error e
      | .ok (e, rest) => pArgsLoop f [e] rest

def pArgsLoop : Nat → List Node → List Token → Except PErr (List Node × List Token)
  | 0, _, _ => .error .outOfFuel
  | Nat.succ f, acc, toks =>
    match toks with
    | .comma :: rest =>
      match pExpr f rest with
      | .error e => .error e
      | .ok (e, rest2) => pArgsLoop f (acc ++ [e]) rest2
    | _ => .ok (acc, toks)

/-- `Parser.primary` restricted to expression syntax. -/
def pPrimary : Nat → List Token → Except PErr (Node × List Token)
  | 0, _ => .error .outOfFuel
  | Nat.succ f, toks =>
    match toks with
    | .kwLamb :: _ => .error (.unmodeledSyntax "lambda literal")
    | .lparen :: rest =>
      match castTyOf (peekT rest 0), peekT rest 1 with
      | some ty, .rparen =>
        -- prefix type cast `(type)expr`
        match pUnary f (rest.drop 2) with
        | .error e => .error e
        | .ok (e, rest2) => .ok (.cast ty e, rest2)
      | _, _ =>
        match pExpr f rest with
        | .error e => .error e
        | .ok (e, rest2) =>
          match rest2 with
          | .rparen :: rest3 => .ok (e, rest3)
          | _ => .error (.parserError "Expected RPAREN")
    | .number n :: rest => .ok (.num n, rest)
    | .floatNumber q :: rest => .ok (.fnum q, rest)
    | .strTok s :: rest => .ok (.strLit s, rest)
    | .kwTrue :: rest => .ok (.boolLit true, rest)
    | .kwFalse :: rest => .ok (.boolLit false, rest)
    | .lbracket :: _ => pArrayLit f toks
    | .lbrace :: _ => .error (.unmodeledSyntax "dict literal or block")
    | .hash :: _ => .error (.unmodeledSyntax "set literal")
    | .kwInput :: _ => .error (.unmodeledSyntax "input expression")
    | .ident nm :: rest => .ok (.varAccess nm, rest)
    | _ => .error (.parserError "Unexpected token in expression")

/-- `Parser.array_literal` (trailing comma tolerated). -/
def pArrayLit : Nat → List Token → Except PErr (Node × List Token)
  | 0, _ => .error .outOfFuel
  | Nat.succ f, toks =>
    match toks with
    | .lbracket :: rest =>
      match rest with
      | .rbracket :: rest2 => .ok (.arrLit [], rest2)
      | _ =>
        match pExpr f rest with
        | .error e => .error e
        | .ok (e, rest2) => pArrayElems f [e] rest2
    | _ => .error (.parserError "Expected LBRACKET")

def pArrayElems : Nat → List Node → List Token → Except PErr (Node × List Token)
  | 0, _, _ => .error .outOfFuel
  | Nat.succ f, acc, toks =>
    match toks with
    | .comma :: .rbracket :: rest => .ok (.arrLit acc, rest)
    | .comma :: rest =>
      match pExpr f rest with
      | .error e => .error e
      | .ok (e, rest2) => pArrayElems f (acc ++ [e]) rest2
    | .rbracket :: rest => .ok (.arrLit acc, rest)
    | _ => .error (.parserError "Expected RBRACKET")

end

/-- Tokenize a source string and parse it as one expression. -/
def parseExprString (src : String) : Except PErr (Node × List Token) :=
  match tokenize src with
  | .ok toks => pExpr (toks.length * 64 + 64) toks
  | _ => .error (.parserError "lexer failure")

/-! ## Concrete programs used by the theorems -/

/-- `let x as 5; +0x;`-style compound division by zero:
`x` bound to 5, then `x /= 0` (CompoundAssignNode with DIVIDE). -/
def compoundDivZeroProg : Node :=
  .block [.varAssign "x" false (.num 5), .compoundAssign "x" .div (.num 0)]

/-- Compound modulo by zero: `x` bound to 5, then `x %= 0`. -/
def compoundModZeroProg : Node :=
  .block [.varAssign "x" false (.num 5), .compoundAssign "x" .mod (.num 0)]

/-- The AST of `x + y * 2` as the parser produces it. -/
def xPlusYTimes2 : Node :=
  .binop .plus (.varAccess "x") (.binop .mul (.varAccess "y") (.num 2))

/-- An environment with `x` bound to 5 and `y` bound to 10. -/
def st8 : St := (initSt.setVar "x" (.vint 5)).setVar "y" (.vint 10)

/-- `let g as 1; fun fn() { g as 99; } fn();` — reassigning an existing
name inside a call. -/
def progReassignInCall : Node :=
  .block [
    .varAssign "g" false (.num 1),
    .funcDef "fn" [] (.block [.varReassign "g" (.num 99)]),
    .call "fn" []
  ]

/-- `let a as [1, 2]; fun fn(p) { push(p, 3); } fn(a);` — mutating a
shared container inside a call. -/
def progMutateInCall : Node :=
  .block [
    .varAssign "a" false (.arrLit [.num 1, .num 2]),
    .funcDef "fn" ["p"] (.block [.call "push" [.varAccess "p", .num 3]]),
    .call "fn" [.varAccess "a"]
  ]

/-- A call whose body reassigns `g` and then raises (undefined variable
access), to observe the `finally` restore on the error path. -/
def progRaiseInCall : Node :=
  .block [
    .varAssign "g" false (.num 1),
    .funcDef "fn" [] (.block [.varReassign "g" (.num 99), .varAccess "boom"]),
    .call "fn" []
  ]

/-- A state with a constant scalar `c` and a constant array `ca`
(bound to the heap cell `[7]`). -/
def constSt : St :=
  { vars := fun n =>
      if n = "c" then some (.vint 5)
      else if n = "ca" then some (.varr 0)
      else Option.none,
    consts := fun n => n = "c" || n = "ca",
    heap := [[.vint 7]] }

/-- `let i as 7; for i in [1, 2, 3] { break; }` — the loop variable had
a prior binding and the loop ends via break. -/
def progPriorBindingLoop : Node :=
  .block [.varAssign "i" false (.num 7),
          .forLoop "i" (.arrLit [.num 1, .num 2, .num 3]) (.block [.breakN])]

/-- `for j in [1, 2] { let t as j; }` — the loop variable was unbound
before the loop, another binding is created inside the body. -/
def progFreshLoopVar : Node :=
  .block [.forLoop "j" (.arrLit [.num 1, .num 2])
            (.block [.varAssign "t" false (.varAccess "j")])]

/-- Body of `fun fn() { return fn(); }`. -/
def fnBody : Node := .block [.returnN (some (.call "fn" []))]

/-- The runtime function value `fn` is bound to. -/
def fnVal : Val := .vfunc "fn" [] fnBody

/-- `fun fn() { return fn(); } fn();` — unbounded recursion. -/
def progInfiniteRec : Node := .block [.funcDef "fn" [] fnBody, .call "fn" []]

/-! ## Definitional one-step reduction lemmas (all by `rfl`) -/

/-- One-step unfolding of `eval` on an `IndexAssignNode`. -/
theorem eval_indexAssign_reduce (f : Nat) (target value : Node) (s : St) :
    eval (f + 1) (.indexAssign target value) s =
      match eval f value s with
      | (.ok nv, s1) =>
        match collectPath f target [] s1 with
        | (.error r, s2) => (r, s2)
        | (.ok (root, path), s2) =>
          match root with
          | .varAccess nm =>
            match s2.vars nm with
            | Option.none => (.err (.varNotDefined nm), s2)
            | some tgt =>
              if s2.consts nm then
                (.err (.runtimeErr s!"Cannot modify constant {nm}"), s2)
              else assignPath s2 tgt path nv
          | _ => (.err (.runtimeErr "Can only assign to variable indices/keys"), s2)
      | other => other := rfl

/-- One-step unfolding of `eval` on an `IndexAccessNode`. -/
theorem eval_indexAccess_reduce (f : Nat) (c k : Node) (s : St) :
    eval (f + 1) (.indexAccess c k) s =
      match eval f c s with
      | (.ok cv, s1) =>
        match eval f k s1 with
        | (.ok kv, s2) => (indexRead s2 cv kv, s2)
        | other => other
      | other => other := rfl

/-- One-step unfolding of `eval` on a `ForLoopNode`. -/
theorem eval_forLoop_reduce (f : Nat) (var : String) (iterN body : Node) (s : St) :
    eval (f + 1) (.forLoop var iterN body) s =
      match eval f iterN s with
      | (.ok v, s1) =>
        match v with
        | .varr addr =>
            let old := s1.vars var
            let (r, s2) := forArr f var body addr 0 .none s1
            (r, s2.setVarOpt var old)
        | .vstr t =>
            let old := s1.vars var
            let chars := t.data.map (fun ch => Val.vstr (String.mk [ch]))
            let (r, s2) := forList f var body chars .none s1
            (r, s2.setVarOpt var old)
        | _ => (.err (.runtimeErr "For loop requires an iterable"), s1)
      | other => other := rfl

theorem collectPath_indexAccess_reduce (f : Nat) (c k : Node) (acc : List Val) (s : St) :
    collectPath (f + 1) (.indexAccess c k) acc s =
      match eval f k s with
      | (.ok kv, s1) => collectPath f c (kv :: acc) s1
      | (other, s1) => (.error other, s1) := rfl

theorem collectPath_var_reduce (f : Nat) (nm : String) (acc : List Val) (s : St) :
    collectPath (f + 1) (.varAccess nm) acc s = (.ok (.varAccess nm, acc), s) := rfl

/-- Restoring a saved optional binding yields exactly that binding. -/
theorem setVarOpt_self (s : St) (n : String) (ov : Option Val) :
    ((s.setVarOpt n ov).vars n) = ov := by
  cases ov <;> simp [St.setVarOpt, St.setVar, St.delVar]

/-! ## Theorems -/

/-- C4.  Division by zero — in both the binary-operator form and the
compound-assignment form — raises the interpreter's *typed*
`PuffingRuntimeError("Division by zero")`.  Modulo by zero, however, is
never checked by the source (neither `eval_binary_op` nor the
`CompoundAssignNode` branch), so it escapes as Python's *untyped*
`ZeroDivisionError` host exception, contradicting the claim that both
operations always raise the corresponding typed error of the taxonomy
(`ModuloByZeroError` in `errors.py` is defined but never raised). -/
theorem div_mod_zero_behaviour :
    (eval 10 (.binop .div (.num 5) (.num 0)) initSt).1
        = .err (.runtimeErr "Division by zero")
    ∧ (eval 10 (.binop .mod (.num 5) (.num 0)) initSt).1 = .err .hostZeroDivision
    ∧ (run 10 compoundDivZeroProg).1 = .err (.runtimeErr "Division by zero")
    ∧ (run 10 compoundModZeroProg).1 = .err .hostZeroDivision :=
  ⟨rfl, rfl, rfl, rfl⟩

/-- C5.  A `break`, `continue` or `return` with no enclosing loop/call
does *not* raise a typed runtime error: it escapes `run` as the raw
control-flow signal itself (`BreakException`/`ContinueException`/
`ReturnException`), contradicting the claim (the taxonomy's
`BreakOutsideLoopError`, `ContinueOutsideLoopError` and
`ReturnOutsideFunctionError` are defined in `errors.py` but never
raised). -/
theorem break_continue_return_escape_as_signals :
    (run 10 (.block [.breakN])).1 = .brk
    ∧ (run 10 (.block [.continueN])).1 = .cont
    ∧ (run 10 (.block [.returnN Option.none])).1 = .ret .none :=
  ⟨rfl, rfl, rfl⟩

/-- C8.  The parser's precedence ladder: multiplicative over additive
(`x + y * 2` parses as `x + (y * 2)`), both levels left-associative
(`x - y - z`, `x / y % z`), power above multiplicative and
right-associative (`x ** y ** z`, `x * y ** z`); and with `x` bound to 5
and `y` to 10, the parsed `x + y * 2` evaluates to 25. -/
theorem parser_precedence_and_eval_25 :
    parseExprString "x + y * 2" = .ok (xPlusYTimes2, [.eof])
    ∧ parseExprString "x - y - z"
        = .ok (.binop .minus (.binop .minus (.varAccess "x") (.varAccess "y"))
                (.varAccess "z"), [.eof])
    ∧ parseExprString "x / y % z"
        = .ok (.binop .mod (.binop .div (.varAccess "x") (.varAccess "y"))
                (.varAccess "z"), [.eof])
    ∧ parseExprString "x ** y ** z"
        = .ok (.binop .pow (.varAccess "x")
                (.binop .pow (.varAccess "y") (.varAccess "z")), [.eof])
    ∧ parseExprString "x * y ** z"
        = .ok (.binop .mul (.varAccess "x")
                (.binop .pow (.varAccess "y") (.varAccess "z")), [.eof])
    ∧ (eval 100 xPlusYTimes2 st8).1 = .ok (.vint 25) :=
  ⟨rfl, rfl, rfl, rfl, rfl, rfl⟩

/-- C10.  `range(n)` evaluates to the inclusive 1-based array
`[1, 2, …, n]` and `range(a, b)` to the inclusive `[a, a+1, …, b]`
(`list(range(int(start), int(stop) + 1, int(step)))`), with the parser
desugaring a one-argument `range(n)` to start 1 / stop `n` / step 1 and a
two-argument `range(a, b)` to step 1. -/
theorem range_inclusive_both_endpoints :
    (∀ (f : Nat) (s : St) (n : Int), 1 ≤ n →
      eval (f + 3) (.rangeN (.num 1) (some (.num n)) (some (.num 1))) s
        = (.ok (.varr s.heap.length),
           { s with heap :=
              s.heap ++ [(List.range n.toNat).map (fun i => Val.vint (1 + i))] }))
    ∧ (∀ (f : Nat) (s : St) (a b : Int), a ≤ b →
      eval (f + 3) (.rangeN (.num a) (some (.num b)) (some (.num 1))) s
        = (.ok (.varr s.heap.length),
           { s with heap :=
              s.heap ++ [(List.range (b + 1 - a).toNat).map (fun i => Val.vint (a + i))] }))
    ∧ parseExprString "range(5)"
        = .ok (.rangeN (.num 1) (some (.num 5)) (some (.num 1)), [.eof])
    ∧ parseExprString "range(2, 7)"
        = .ok (.rangeN (.num 2) (some (.num 7)) (some (.num 1)), [.eof]) := by
  refine ⟨?_, ?_, rfl, rfl⟩
  · intro f s n _
    rw [show f + 3 = (f + 2) + 1 from rfl]
    simp only [eval]
    rw [show f + 2 = (f + 1) + 1 from rfl]
    simp only [eval, evalOpt]
    simp only [pyToInt, pyRange, St.alloc]
    norm_num
  · intro f s a b _
    rw [show f + 3 = (f + 2) + 1 from rfl]
    simp only [eval]
    rw [show f + 2 = (f + 1) + 1 from rfl]
    simp only [eval, evalOpt]
    simp only [pyToInt, pyRange, St.alloc]
    norm_num

/-- C1.  Call snapshot/restore: for *every* function or lambda
invocation, at every fuel and state, the caller's name→value mapping
after the call is exactly the mapping before it — the `finally` restore
fires on normal completion, early return, break/continue signals and
errors alike.  Consequently (concrete programs): reassigning an existing
name inside a call leaves the caller's binding unchanged; an in-place
`push` on an array passed through a parameter is visible to the caller
(the heap cell behind the shared reference now holds the appended
element while the binding still points at it); and after a body that
reassigns a global and then raises, the caller's binding is restored. -/
theorem call_snapshot_restore :
    (∀ (fuel : Nat) (name : String) (params : List String) (body : Node)
        (args : List Val) (s : St),
        ((callFunction fuel name params body args s).2).vars = s.vars)
    ∧ (∀ (fuel : Nat) (params : List String) (ie : Bool) (body : Node)
        (args : List Val) (s : St),
        ((callLambda fuel params ie body args s).2).vars = s.vars)
    ∧ (run 100 progReassignInCall).2.vars "g" = some (.vint 1)
    ∧ (run 100 progMutateInCall).2.vars "a" = some (.varr 0)
    ∧ (run 100 progMutateInCall).2.heap = [[.vint 1, .vint 2, .vint 3]]
    ∧ (run 100 progRaiseInCall).1 = .err (.varNotDefined "boom")
    ∧ (run 100 progRaiseInCall).2.vars "g" = some (.vint 1) := by
  refine ⟨?_, ?_, rfl, rfl, rfl, rfl, rfl⟩
  · intro fuel name params body args s
    match fuel with
    | 0 => rfl
    | Nat.succ f =>
      simp only [callFunction]
      split
      · rfl
      · rcases h : eval f body (bindParams params args s) with ⟨r, s2⟩
        simp only [h]
        cases r <;> rfl
  · intro fuel params ie body args s
    match fuel with
    | 0 => rfl
    | Nat.succ f =>
      simp only [callLambda]
      split
      · rfl
      · rcases h : eval f body (bindParams params args s) with ⟨r, s2⟩
        simp only [h]
        cases r <;> rfl

/-- C3.  Every write operation on a name marked constant — plain
reassignment, compound assignment, increment/decrement, a mutating
container builtin (`push`, `pop`) applied to the bare name, and index
assignment rooted at the name — raises the interpreter's typed
constant-modification `PuffingRuntimeError`, and the state (in
particular the binding of that name) is unchanged by the operation: for
the first five forms the returned state is exactly the input state (the
check precedes any evaluation); for index assignment it is the state
after evaluating the value and key subexpressions, in which the name's
binding is still `w`. -/
theorem constant_write_rejected :
    (∀ (f : Nat) (nm : String) (v : Node) (s : St) (w : Val),
        s.vars nm = some w → s.consts nm = true →
        eval (f + 1) (.varReassign nm v) s
          = (.err (.runtimeErr s!"Cannot reassign constant {nm}"), s))
    ∧ (∀ (f : Nat) (nm : String) (op : BOp) (v : Node) (s : St) (w : Val),
        s.vars nm = some w → s.consts nm = true →
        eval (f + 1) (.compoundAssign nm op v) s
          = (.err (.runtimeErr s!"Cannot reassign constant {nm}"), s))
    ∧ (∀ (f : Nat) (nm : String) (isInc pre : Bool) (s : St) (w : Val),
        s.vars nm = some w → s.consts nm = true →
        eval (f + 1) (.increment nm isInc pre) s
          = (.err (.runtimeErr s!"Cannot modify constant {nm}"), s))
    ∧ (∀ (f : Nat) (nm : String) (argN : Node) (s : St) (w : Val),
        s.vars nm = some w → s.consts nm = true → s.vars "push" = Option.none →
        eval (f + 3) (.call "push" [.varAccess nm, argN]) s
          = (.err (.runtimeErr s!"Cannot modify constant {nm}"), s))
    ∧ (∀ (f : Nat) (nm : String) (s : St) (w : Val),
        s.vars nm = some w → s.consts nm = true → s.vars "pop" = Option.none →
        eval (f + 3) (.call "pop" [.varAccess nm]) s
          = (.err (.runtimeErr s!"Cannot modify constant {nm}"), s))
    ∧ (∀ (f : Nat) (nm : String) (kN vN : Node) (s s1 s2 : St) (vv kv w : Val),
        eval (f + 2) vN s = (.ok vv, s1) →
        eval (f + 1) kN s1 = (.ok kv, s2) →
        s2.vars nm = some w → s2.consts nm = true →
        eval (f + 3) (.indexAssign (.indexAccess (.varAccess nm) kN) vN) s
          = (.err (.runtimeErr s!"Cannot modify constant {nm}"), s2)) := by
  refine ⟨?_, ?_, ?_, ?_, ?_, ?_⟩
  · intro f nm v s w hw hc
    simp [eval, hw, hc]
  · intro f nm op v s w hw hc
    simp [eval, hw, hc]
  · intro f nm isInc pre s w hw hc
    simp [eval, hw, hc]
  · intro f nm argN s w hw hc hpush
    rw [show f + 3 = (f + 2) + 1 from rfl]
    simp only [eval]
    rw [show f + 2 = (f + 1) + 1 from rfl]
    simp [evalCall, resolveArrArg, hpush, hw, hc]
  · intro f nm s w hw hc hpop
    rw [show f + 3 = (f + 2) + 1 from rfl]
    simp only [eval]
    rw [show f + 2 = (f + 1) + 1 from rfl]
    simp [evalCall, resolveArrArg, hpop, hw, hc]
  · intro f nm kN vN s s1 s2 vv kv w hA hB hw hc
    rw [show f + 3 = (f + 2) + 1 from rfl, eval_indexAssign_reduce, hA]
    dsimp only
    rw [show f + 2 = (f + 1) + 1 from rfl, collectPath_indexAccess_reduce, hB]
    dsimp only
    rw [collectPath_var_reduce]
    dsimp only
    rw [hw, hc]
    simp

/-- Witness for C3 at concrete inputs: reassignment, compound
assignment, increment, `push`, `pop` and index assignment on the
constant names `c`/`ca` all fail with the constant error and leave the
state unchanged. -/
theorem constant_write_rejected_witness :
    eval 1 (.varReassign "c" (.num 9)) constSt
      = (.err (.runtimeErr "Cannot reassign constant c"), constSt)
    ∧ eval 1 (.compoundAssign "c" .plus (.num 9)) constSt
      = (.err (.runtimeErr "Cannot reassign constant c"), constSt)
    ∧ eval 1 (.increment "c" true true) constSt
      = (.err (.runtimeErr "Cannot modify constant c"), constSt)
    ∧ eval 3 (.call "push" [.varAccess "ca", .num 1]) constSt
      = (.err (.runtimeErr "Cannot modify constant ca"), constSt)
    ∧ eval 3 (.call "pop" [.varAccess "ca"]) constSt
      = (.err (.runtimeErr "Cannot modify constant ca"), constSt)
    ∧ eval 3 (.indexAssign (.indexAccess (.varAccess "ca") (.num 1)) (.num 9)) constSt
      = (.err (.runtimeErr "Cannot modify constant ca"), constSt) := by
  refine ⟨?_, ?_, ?_, ?_, ?_, ?_⟩
  · exact constant_write_rejected.1 0 "c" (.num 9) constSt (.vint 5) rfl rfl
  · exact constant_write_rejected.2.1 0 "c" .plus (.num 9) constSt (.vint 5) rfl rfl
  · exact constant_write_rejected.2.2.1 0 "c" true true constSt (.vint 5) rfl rfl
  · exact constant_write_rejected.2.2.2.1 0 "ca" (.num 1) constSt (.varr 0) rfl rfl rfl
  · exact constant_write_rejected.2.2.2.2.1 0 "ca" constSt (.varr 0) rfl rfl rfl
  · exact constant_write_rejected.2.2.2.2.2 0 "ca" (.num 1) (.num 9) constSt constSt
      constSt (.vint 9) (.vint 1) (.varr 0) rfl rfl rfl rfl

/-- C9.  After a for loop over any iterable (array or string) finishes —
by exhaustion, break, or even an error or return unwinding through the
`finally` — the loop variable's binding equals its value from before the
loop (given that evaluating the iterable expression itself left that
binding alone): restored when previously bound, absent when not.
Concretely, a previously bound `i` is `7` again after a broken loop, a
fresh `j` is absent after the loop, while the body's `t` binding — of
another name, untouched by the loop-variable bookkeeping — survives with
the last element's value. -/
theorem for_loop_variable_restored :
    (∀ (f : Nat) (var : String) (iterN body : Node) (s s1 : St) (v : Val),
        eval f iterN s = (.ok v, s1) →
        ((∃ addr, v = .varr addr) ∨ (∃ t, v = .vstr t)) →
        s1.vars var = s.vars var →
        ((eval (f + 1) (.forLoop var iterN body) s).2).vars var = s.vars var)
    ∧ (run 100 progPriorBindingLoop).2.vars "i" = some (.vint 7)
    ∧ (run 100 progFreshLoopVar).2.vars "j" = Option.none
    ∧ (run 100 progFreshLoopVar).2.vars "t" = some (.vint 2) := by
  refine ⟨?_, rfl, rfl, rfl⟩
  intro f var iterN body s s1 v hIter hKind hPre
  rw [eval_forLoop_reduce, hIter]
  rcases hKind with ⟨addr, rfl⟩ | ⟨t, rfl⟩
  · dsimp only
    rcases hF : forArr f var body addr 0 .none s1 with ⟨r, s2⟩
    simp only [hF]
    rw [setVarOpt_self, hPre]
  · dsimp only
    rcases hF : forList f var body (t.data.map (fun ch => Val.vstr (String.mk [ch]))) .none s1
      with ⟨r, s2⟩
    simp only [hF]
    rw [setVarOpt_self, hPre]

/-- Witness for C9 at a concrete input: after `for i in [1] {}` from the
empty environment, `i` is absent again. -/
theorem for_loop_variable_restored_witness :
    ((eval 51 (.forLoop "i" (.arrLit [.num 1]) (.block [])) initSt).2).vars "i"
      = Option.none := by
  have h := for_loop_variable_restored.1 50 "i" (.arrLit [.num 1]) (.block []) initSt
    { initSt with heap := [[.vint 1]] } (.varr 0) rfl (Or.inl ⟨0, rfl⟩) rfl
  exact h.trans rfl

/-- One-step unfolding of `eval` on a call node. -/
theorem eval_call_reduce (f : Nat) (name : String) (args : List Node) (s : St) :
    eval (f + 1) (.call name args) s = evalCall f name args s := rfl

/-- Dispatch of a call to the user function `fn` once bound. -/
theorem evalCall_fn (k : Nat) (s : St) (hs : s.vars "fn" = some fnVal) :
    evalCall (k + 1) "fn" [] s =
      match evalArgs k [] s with
      | (.error r, s1) => (r, s1)
      | (.ok vs, s1) => callFunction k "fn" [] fnBody vs s1 := by
  simp only [evalCall, hs, fnVal]

/-- Empty argument lists evaluate to the empty value list. -/
theorem evalArgs_nil (p : Nat) (s : St) : evalArgs (p + 1) [] s = (.ok [], s) := rfl

/-- Reduction of `PuffingFunction.call` for the nullary `fn`. -/
theorem callFunction_fn (p : Nat) (s : St) :
    callFunction (p + 1) "fn" [] fnBody [] s =
      match eval p fnBody s with
      | (.ret v, s2) => (.ok v, { s2 with vars := s.vars })
      | (r, s2) => (r, { s2 with vars := s.vars }) := by
  rcases hE : eval p fnBody s with ⟨r, s2⟩
  simp only [callFunction, bindParams, hE, List.length_nil, ne_eq, not_true_eq_false,
    if_false]
  cases r <;> rfl

/-- One-step unfolding of `eval` on a block. -/
theorem eval_block_reduce (q : Nat) (stmts : List Node) (s : St) :
    eval (q + 1) (.block stmts) s = evalSeq q stmts .none s := rfl

/-- One-step unfolding of statement-sequence evaluation. -/
theorem evalSeq_cons (r1 : Nat) (n : Node) (rest : List Node) (acc : Val) (s : St) :
    evalSeq (r1 + 1) (n :: rest) acc s =
      match eval r1 n s with
      | (.ok v, s1) => evalSeq r1 rest v s1
      | other => other := rfl

/-- One-step unfolding of `eval` on a return with a value. -/
theorem eval_return_some (r2 : Nat) (n : Node) (s : St) :
    eval (r2 + 1) (.returnN (some n)) s =
      match eval r2 n s with
      | (.ok v, s1) => (.ret v, s1)
      | other => other := rfl

/-- Evaluating `fn()` with `fn` bound to the self-recursive function
yields the host recursion error at every fuel. -/
theorem call_fn_hostrec :
    ∀ (h : Nat) (s : St), s.vars "fn" = some fnVal →
      (eval h (.call "fn" []) s).1 = .err .hostRecursion := by
  intro h
  induction h using Nat.strong_induction_on with
  | _ h IH =>
    intro s hs
    cases h with
    | zero => rfl
    | succ k =>
      rw [eval_call_reduce]
      cases k with
      | zero => rfl
      | succ m =>
        rw [evalCall_fn m s hs]
        cases m with
        | zero => rfl
        | succ p =>
          rw [evalArgs_nil]
          dsimp only
          rw [callFunction_fn p s]
          cases p with
          | zero => rfl
          | succ q =>
            simp only [fnBody]
            rw [eval_block_reduce]
            cases q with
            | zero => rfl
            | succ r1 =>
              rw [evalSeq_cons]
              cases r1 with
              | zero => rfl
              | succ r2 =>
                rw [eval_return_some]
                have hrec := IH r2 (by omega) s hs
                rcases hE : eval r2 (.call "fn" []) s with ⟨r, s2⟩
                rw [hE] at hrec
                simp only at hrec
                subst hrec
                rfl

/-- C7.  When recursive invocation exhausts the host recursion budget,
the result delivered to the caller of `run` is the *untyped* host
`RecursionError`, at every budget: the interpreter installs no handler
that would convert it into the catchable typed "recursion too deep"
error (`StackOverflowError` in `errors.py` is defined but never raised),
so the claimed conversion never happens. -/
theorem recursion_error_escapes_untyped :
    ∀ fuel : Nat, (run fuel progInfiniteRec).1 = .err .hostRecursion := by
  intro fuel
  cases fuel with
  | zero => rfl
  | succ F =>
    show (evalSeq F [.funcDef "fn" [] fnBody, .call "fn" []] .none initSt).1
        = .err .hostRecursion
    cases F with
    | zero => rfl
    | succ G =>
      rw [evalSeq_cons]
      cases G with
      | zero => rfl
      | succ H =>
        have h1 : eval (H + 1) (.funcDef "fn" [] fnBody) initSt
            = (.ok fnVal, initSt.setVar "fn" fnVal) := rfl
        rw [h1]
        dsimp only
        rw [evalSeq_cons]
        have hs : (initSt.setVar "fn" fnVal).vars "fn" = some fnVal := rfl
        have hrec := call_fn_hostrec H (initSt.setVar "fn" fnVal) hs
        rcases hE : eval H (.call "fn" []) (initSt.setVar "fn" fnVal) with ⟨r, s2⟩
        rw [hE] at hrec
        simp only at hrec
        subst hrec
        rfl

/-- Witness for C10 at concrete inputs: `range(3)` is `[1, 2, 3]` and
`range(2, 4)` is `[2, 3, 4]`. -/
theorem range_inclusive_witness :
    eval 3 (.rangeN (.num 1) (some (.num 3)) (some (.num 1))) initSt
      = (.ok (.varr 0), { initSt with heap := [[.vint 1, .vint 2, .vint 3]] })
    ∧ eval 3 (.rangeN (.num 2) (some (.num 4)) (some (.num 1))) initSt
      = (.ok (.varr 0), { initSt with heap := [[.vint 2, .vint 3, .vint 4]] }) := by
  constructor
  · have h := range_inclusive_both_endpoints.1 0 initSt 3 (by norm_num)
    simpa using h
  · have h := range_inclusive_both_endpoints.2.1 0 initSt 2 4 (by norm_num)
    simpa using h

/-- C2 counterexample.  The claim says a non-integer index raises an
index-type error, but a *boolean* index is accepted: Python `bool` is a
subclass of `int`, so `isinstance(True, int)` holds and `[5][true]`
returns the first element instead of raising. -/
theorem bool_index_read_succeeds :
    (eval 10 (.indexAccess (.arrLit [.num 5]) (.boolLit true)) initSt).1
      = .ok (.vint 5) := rfl

/-- C2 (amended).  For an array of length n: an integer index k reads
zero-based slot k−1 when 1 ≤ k ≤ n, slot n+k when −n ≤ k ≤ −1, and
raises an out-of-range `PuffingRuntimeError` when k = 0, k > n or
k < −n; a boolean index behaves exactly like the integer 1/0; and an
index that is neither an integer nor a boolean raises the index-type
error. -/
theorem array_index_read_normalization :
    ∀ (f : Nat) (cN kN : Node) (s s1 s2 : St) (addr : Nat) (l : List Val) (kv : Val),
      eval f cN s = (.ok (.varr addr), s1) →
      eval f kN s1 = (.ok kv, s2) →
      s2.heapGet addr = some l →
      (∀ kI : Int, kv = .vint kI →
          ((1 ≤ kI ∧ kI ≤ (l.length : Int)) →
            (eval (f + 1) (.indexAccess cN kN) s).1 = .ok (l.getD (kI - 1).toNat .none))
        ∧ ((-(l.length : Int) ≤ kI ∧ kI ≤ -1) →
            (eval (f + 1) (.indexAccess cN kN) s).1
              = .ok (l.getD ((l.length : Int) + kI).toNat .none))
        ∧ ((kI = 0 ∨ (l.length : Int) < kI ∨ kI < -(l.length : Int)) →
            ∃ msg, (eval (f + 1) (.indexAccess cN kN) s).1 = .err (.runtimeErr msg)))
      ∧ (∀ b : Bool, kv = .vbool b →
            (eval (f + 1) (.indexAccess cN kN) s).1
              = indexRead s2 (.varr addr) (.vint (cond b 1 0)))
      ∧ ((∀ kI : Int, kv ≠ .vint kI) → (∀ b : Bool, kv ≠ .vbool b) →
            (eval (f + 1) (.indexAccess cN kN) s).1
              = .err (.runtimeErr
                  s!"Array/string index must be an integer, got {typeName kv}")) := by
  intro f cN kN s s1 s2 addr l kv hC hK hHeap
  have hred : (eval (f + 1) (.indexAccess cN kN) s).1 = indexRead s2 (.varr addr) kv := by
    rw [eval_indexAccess_reduce, hC]
    dsimp only
    rw [hK]
  refine ⟨?_, ?_, ?_⟩
  · rintro kI rfl
    refine ⟨?_, ?_, ?_⟩
    · rintro ⟨h1, h2⟩
      rw [hred]
      simp only [indexRead, pyIndexInt, hHeap, Option.getD_some]
      rw [if_neg (by omega), if_neg (by omega), if_pos (by omega)]
    · rintro ⟨h1, h2⟩
      rw [hred]
      simp only [indexRead, pyIndexInt, hHeap, Option.getD_some]
      rw [if_pos (by omega), if_pos (by omega)]
    · intro h
      rw [hred]
      simp only [indexRead, pyIndexInt, hHeap, Option.getD_some]
      rcases h with h0 | hgt | hlt
      · subst h0
        rw [if_neg (by omega), if_pos (by omega)]
        exact ⟨_, rfl⟩
      · rw [if_neg (by omega), if_neg (by omega), if_neg (by omega)]
        exact ⟨_, rfl⟩
      · rw [if_pos (by omega), if_neg (by omega)]
        exact ⟨_, rfl⟩
  · rintro b rfl
    rw [hred]
    rfl
  · intro hInt hBool
    rw [hred]
    cases kv with
    | vint n => exact absurd rfl (hInt n)
    | vbool b => exact absurd rfl (hBool b)
    | none => simp [indexRead, pyIndexInt, typeName]
    | vfloat q => simp [indexRead, pyIndexInt, typeName]
    | vstr t => simp [indexRead, pyIndexInt, typeName]
    | varr a => simp [indexRead, pyIndexInt, typeName]
    | vfunc a b c => simp [indexRead, pyIndexInt, typeName]
    | vlambda a b c => simp [indexRead, pyIndexInt, typeName]

/-- Witness for C2 on the concrete array `[7, 8]`: index 2 reads slot
1, index −1 reads the last element, index 3 is out of range, and a
string index is an index-type error. -/
theorem array_index_read_normalization_witness :
    (eval 21 (.indexAccess (.arrLit [.num 7, .num 8]) (.num 2)) initSt).1
      = .ok (.vint 8)
    ∧ (eval 21 (.indexAccess (.arrLit [.num 7, .num 8]) (.num (-1))) initSt).1
      = .ok (.vint 8)
    ∧ (∃ msg, (eval 21 (.indexAccess (.arrLit [.num 7, .num 8]) (.num 3)) initSt).1
        = .err (.runtimeErr msg))
    ∧ (eval 21 (.indexAccess (.arrLit [.num 7, .num 8]) (.strLit "k")) initSt).1
      = .err (.runtimeErr "Array/string index must be an integer, got str") := by
  have h := array_index_read_normalization 20 (.arrLit [.num 7, .num 8]) (.num 2)
    initSt { initSt with heap := [[.vint 7, .vint 8]] }
    { initSt with heap := [[.vint 7, .vint 8]] } 0 [.vint 7, .vint 8] (.vint 2)
    rfl rfl rfl
  have h2 := array_index_read_normalization 20 (.arrLit [.num 7, .num 8]) (.num (-1))
    initSt { initSt with heap := [[.vint 7, .vint 8]] }
    { initSt with heap := [[.vint 7, .vint 8]] } 0 [.vint 7, .vint 8] (.vint (-1))
    rfl rfl rfl
  have h3 := array_index_read_normalization 20 (.arrLit [.num 7, .num 8]) (.num 3)
    initSt { initSt with heap := [[.vint 7, .vint 8]] }
    { initSt with heap := [[.vint 7, .vint 8]] } 0 [.vint 7, .vint 8] (.vint 3)
    rfl rfl rfl
  have h4 := array_index_read_normalization 20 (.arrLit [.num 7, .num 8]) (.strLit "k")
    initSt { initSt with heap := [[.vint 7, .vint 8]] }
    { initSt with heap := [[.vint 7, .vint 8]] } 0 [.vint 7, .vint 8] (.vstr "k")
    rfl rfl rfl
  refine ⟨?_, ?_, ?_, ?_⟩
  · exact ((h.1 2 rfl).1 ⟨by norm_num, by norm_num⟩).trans rfl
  · exact ((h2.1 (-1) rfl).2.1 ⟨by norm_num, by norm_num⟩).trans rfl
  · exact (h3.1 3 rfl).2.2 (Or.inr (Or.inl (by norm_num)))
  · exact (h4.2.2 (fun kI hk => by cases hk) (fun b hb => by cases hb)).trans rfl

/-- Every successful run of the tokenize loop ends with the EOF token
appended after the loop. -/
theorem lexAux_ok_last :
    ∀ (fuel : Nat) (cs : List Char) (toks : List Token),
      lexAux fuel cs = .ok toks → toks.getLast? = some .eof := by
  intro fuel
  induction fuel with
  | zero =>
    intro cs toks h
    exact LexRes.noConfusion h
  | succ f IH =>
    intro cs toks h
    match cs with
    | [] =>
      injection h with h'
      subst h'
      rfl
    | c :: rest =>
      rw [show lexAux (f + 1) (c :: rest) =
            (match lexStep c rest with
             | .skipTo rest2 => lexAux f rest2
             | .emit tok rest2 =>
               match lexAux f rest2 with
               | .ok toks => .ok (tok :: toks)
               | other => other
             | .failUnterminated => .lexerError "Unterminated string"
             | .failDangling => .hostError
             | .failUnknown ch => .lexerError s!"Unknown character {ch}") from rfl] at h
      cases hstep : lexStep c rest with
      | skipTo rest2 =>
        rw [hstep] at h
        dsimp only at h
        exact IH _ _ h
      | emit tok rest2 =>
        rw [hstep] at h
        dsimp only at h
        cases hrec : lexAux f rest2 with
        | ok ts =>
          rw [hrec] at h
          injection h with h'
          subst h'
          have hlast := IH _ _ hrec
          cases ts with
          | nil => exact absurd hlast (by simp)
          | cons b l => rw [List.getLast?_cons_cons]; exact hlast
        | lexerError m => rw [hrec] at h; exact LexRes.noConfusion h
        | hostError => rw [hrec] at h; exact LexRes.noConfusion h
        | outOfFuel => rw [hrec] at h; exact LexRes.noConfusion h
      | failUnterminated => rw [hstep] at h; dsimp only at h; exact LexRes.noConfusion h
      | failDangling => rw [hstep] at h; dsimp only at h; exact LexRes.noConfusion h
      | failUnknown ch => rw [hstep] at h; dsimp only at h; exact LexRes.noConfusion h

/-- C6.  The tokenizer's actual failure modes: an unterminated string
raises the typed `LexerError`, an unrecognized character raises the
typed `LexerError`, and every successful tokenization ends in the
end-of-input token — but, against the claim, an unterminated *block
comment* is consumed silently to end of input and tokenizes successfully
(`skip_block_comment` has no raise; `UnterminatedCommentError` in
`errors.py` is never raised), and a string literal whose input ends
right after a backslash crashes with an untyped host `TypeError`
(`result += None`) instead of a `LexerError`. -/
theorem tokenize_failure_modes :
    tokenize "?-x" = .ok [.eof]
    ∧ tokenize "\"abc" = .lexerError "Unterminated string"
    ∧ tokenize "@" = .lexerError "Unknown character @"
    ∧ tokenize "\"abc\\" = .hostError
    ∧ (∀ (src : String) (toks : List Token),
        tokenize src = .ok toks → toks ≠ [] ∧ toks.getLast? = some .eof) := by
  refine ⟨rfl, rfl, rfl, rfl, ?_⟩
  intro src toks h
  have hlast := lexAux_ok_last _ _ _ h
  refine ⟨?_, hlast⟩
  intro hnil
  subst hnil
  exact absurd hlast (by simp)

/-- Witness for C6: the general ends-in-EOF conjunct applied to the
concrete input `"x"`. -/
theorem tokenize_failure_modes_witness :
    ([.ident "x", .eof] : List Token) ≠ []
    ∧ ([.ident "x", .eof] : List Token).getLast? = some .eof :=
  tokenize_failure_modes.2.2.2.2 "x" [.ident "x", .eof] rfl

end Puffing
